import Mathlib

/-!
# MessageSender: the dispatch worker

A shallow embedding of `sender.go` (message validation) and of
`internal/service/worker.go` (one processing cycle of the worker), with the
three collaborators of the worker (message store, delivery client, dedup
cache) modelled by the answers they give; of `Start`, `Stop` and the
processing loop as steps on the state of the worker; of the queries of
`internal/store/mongo` on a list of documents; of
`internal/client/messageclient`, with `encoding/json` and `net/http` as
parameters; of the methods of `internal/service/service.go`; and of
`CacheMessageID` of `internal/store/redis`.

Conventions of the embedding

* A Go `string` is a Lean `String`; Go's `len(s)` is the number of bytes of
  the UTF-8 encoding, `String.utf8ByteSize`.
* A Go `error` is `Option Error`: `none` is `nil`.
* A pointer that may be `nil` is an `Option`.
* `primitive.ObjectID` (12 bytes) and `time.Time` are natural numbers; the
  worker only copies them.
* Every call that leaves the worker (store, client, cache) and every
  `time.Sleep` is appended to a trace of `Call`s.  Logging has no effect on
  control flow and is left out.
-/

namespace MessageSender

/-! ## Data model (`sender.go`, `mongo_params.go`, `client.go`) -/

abbrev ObjectID := Nat
abbrev Time := Nat
abbrev Error := String

/-- The constant `MaxMessageLength` of `sender.go`. -/
def MaxMessageLength : Nat := 1000

/-- The struct `MessageTransaction` of `sender.go`. -/
structure MessageTransaction where
  ID : ObjectID
  Content : String
  Recipient : String
  Status : String
  SentAt : Option Time
  CreatedAt : Time
  deriving DecidableEq, Repr

/-- Go's builtin `len` on a string: the number of bytes. -/
def len (s : String) : Nat := s.utf8ByteSize

/-- The method `MessageTransaction.IsValid` of `sender.go`. -/
def MessageTransaction.IsValid (m : MessageTransaction) : Bool :=
  if len m.Content > MaxMessageLength || len m.Recipient == 0 || len m.Content == 0 then
    false
  else
    true

def STATUS_PENDING : String := "pending"
def STATUS_SENT : String := "sent"
def STATUS_FAILED : String := "failed"
def STATUS_INVALID : String := "invalid"

/-- The struct `MessageFilter` of `mongo_params.go`. -/
structure MessageFilter where
  Status : List String
  deriving DecidableEq, Repr

/-- The struct `MessageOptions` of `mongo_params.go`; `Limit` is an `int64`. -/
structure MessageOptions where
  Limit : Int
  deriving DecidableEq, Repr

/-- The struct `MessageResponse` of `client.go`. -/
structure MessageResponse where
  Message : String
  MessageID : String
  deriving DecidableEq, Repr

/-! ## Calls leaving the worker -/

/-- One observable action of the worker: a method call on a collaborator
(`mongostore.Store`, `messageclient.MessageClient`, `redisstore.Store`) with
its arguments, or a `time.Sleep` with its duration in milliseconds. -/
inductive Call where
  | GetMessages (f : MessageFilter) (o : MessageOptions)
  | SendMessage (recipient content : String)
  | UpdateMessageStatus (id : ObjectID) (status : String) (sentAt : Option Time)
  | CacheMessageID (id : String)
  | Sleep (ms : Nat)
  deriving DecidableEq, Repr

def Call.isGetMessages : Call → Bool
  | .GetMessages _ _ => true
  | _ => false

def Call.isSendMessage : Call → Bool
  | .SendMessage _ _ => true
  | _ => false

def Call.isUpdateMessageStatus : Call → Bool
  | .UpdateMessageStatus _ _ _ => true
  | _ => false

def Call.isCacheMessageID : Call → Bool
  | .CacheMessageID _ => true
  | _ => false

def Call.isSleep : Call → Bool
  | .Sleep _ => true
  | _ => false

/-! ## The worker (`worker.go`) -/

/-- What exists outside the worker struct: the channels made so far (`true`
once closed) and the tickers made so far (period in nanoseconds, `true` once
stopped).  A channel or ticker handle is its index. -/
structure Runtime where
  chans : List Bool
  tickers : List (Nat × Bool)
  deriving DecidableEq, Repr

/-- The struct `Worker`.  The collaborators `sender`, `ms`, `rs` are
represented by the answers they give (`UnitEnv`, `CycleEnv`), the logger and
the mutex are left out. -/
structure Worker where
  ticker : Option Nat
  done : Nat
  running : Bool
  limit : Int
  deriving DecidableEq, Repr

/-- The function `NewWorker`: `done` is a freshly made channel, `running` is
false, `ticker` is left at its zero value `nil`. -/
def NewWorker (limit : Int) (rt : Runtime) : Worker × Runtime :=
  ({ ticker := none, done := rt.chans.length, running := false, limit := limit },
   { rt with chans := rt.chans ++ [false] })

/-- The answers the collaborators give to one unit of work (the goroutine
started for one message): the result of `SendMessage`, the result of the
unit's k-th `UpdateMessageStatus` call (counted from 0), the result of
`CacheMessageID`, and the value of the unit's k-th `time.Now()`.  The
answers are arbitrary: an expired cycle deadline (the shared 30 s context)
or the action of another unit shows up as some answer. -/
structure UnitEnv where
  sendResult : Option MessageResponse × Option Error
  updateResult : Nat → Option Error
  cacheResult : Option Error
  clock : Nat → Time

/-- The state threaded through one unit: the calls issued so far, and how
many `UpdateMessageStatus` calls and `time.Now()` readings it has made. -/
structure UnitState where
  trace : List Call
  updates : Nat
  nows : Nat
  deriving DecidableEq, Repr

def UnitState.init : UnitState := { trace := [], updates := 0, nows := 0 }

/-- The call `w.sender.SendMessage(ctx, msg.Recipient, msg.Content)`. -/
def SendMessage (env : UnitEnv) (recipient content : String) (s : UnitState) :
    (Option MessageResponse × Option Error) × UnitState :=
  (env.sendResult, { s with trace := s.trace ++ [Call.SendMessage recipient content] })

/-- The call `w.ms.UpdateMessageStatus(ctx, id, status, sentAt)`. -/
def UpdateMessageStatus (env : UnitEnv) (id : ObjectID) (status : String)
    (sentAt : Option Time) (s : UnitState) : Option Error × UnitState :=
  (env.updateResult s.updates,
   { s with trace := s.trace ++ [Call.UpdateMessageStatus id status sentAt],
            updates := s.updates + 1 })

/-- The call `w.rs.CacheMessageID(ctx, id)`. -/
def CacheMessageID (env : UnitEnv) (id : String) (s : UnitState) :
    Option Error × UnitState :=
  (env.cacheResult, { s with trace := s.trace ++ [Call.CacheMessageID id] })

/-- The call `time.Now()`. -/
def timeNow (env : UnitEnv) (s : UnitState) : Time × UnitState :=
  (env.clock s.nows, { s with nows := s.nows + 1 })

/-- The call `time.Sleep(ms * time.Millisecond)`. -/
def timeSleep (ms : Nat) (s : UnitState) : UnitState :=
  { s with trace := s.trace ++ [Call.Sleep ms] }

/-- The loop `for i := 0; i < 3; i++` that writes status FAILED; the first
argument is the number of iterations left (`3 - i`), `err` is the variable
`err` on entry of the iteration.  Returns `err` after the loop. -/
def retryFailed (env : UnitEnv) (id : ObjectID) :
    Nat → Option Error → UnitState → Option Error × UnitState
  | 0, err, s => (err, s)
  | n + 1, _, s =>
    let r := UpdateMessageStatus env id STATUS_FAILED none s
    match r.1 with
    | none => (none, r.2)
    | some e => retryFailed env id n (some e) (timeSleep 100 r.2)

/-- The loop `for i := 0; i < 3; i++` that writes status SENT with
`now := time.Now()` taken anew in each iteration. -/
def retrySent (env : UnitEnv) (id : ObjectID) :
    Nat → Option Error → UnitState → Option Error × UnitState
  | 0, err, s => (err, s)
  | n + 1, _, s =>
    let t := timeNow env s
    let r := UpdateMessageStatus env id STATUS_SENT (some t.1) t.2
    match r.1 with
    | none => (none, r.2)
    | some e => retrySent env id n (some e) (timeSleep 100 r.2)

/-- How a unit ends: it returns, or it panics (a nil pointer dereference). -/
inductive Completion where
  | returned
  | panicked
  deriving DecidableEq, Repr

/-- The body of the goroutine `go func(msg sender.MessageTransaction)` in
`Worker.process`, for one message.  On the invalid branch the source stores
the result of the write in the `err` of the enclosing function; it is read
only to decide whether to log, so it is dropped here.  `res.MessageID` is
read only after both `err` checks; with `res == nil` that read panics. -/
def processMessage (env : UnitEnv) (msg : MessageTransaction) (s : UnitState) :
    Completion × UnitState :=
  if !msg.IsValid then
    let r := UpdateMessageStatus env msg.ID STATUS_INVALID none s
    (Completion.returned, r.2)
  else
    let sent := SendMessage env msg.Recipient msg.Content s
    match sent.1.2 with
    | some e =>
      let r := retryFailed env msg.ID 3 (some e) sent.2
      (Completion.returned, r.2)
    | none =>
      let r := retrySent env msg.ID 3 none sent.2
      match r.1 with
      | some _ => (Completion.returned, r.2)
      | none =>
        match sent.1.1 with
        | none => (Completion.panicked, r.2)
        | some res =>
          let c := CacheMessageID env res.MessageID r.2
          (Completion.returned, c.2)

/-- The run of one unit: the message it was started for, how it ended and
the calls it issued, in order. -/
structure UnitRun where
  msg : MessageTransaction
  completion : Completion
  trace : List Call
  deriving DecidableEq, Repr

def runUnit (env : UnitEnv) (msg : MessageTransaction) : UnitRun :=
  let r := processMessage env msg UnitState.init
  { msg := msg, completion := r.1, trace := r.2.trace }

/-- The answers the collaborators give during one cycle: the result of
`GetMessages`, and for the unit of the i-th message of the batch (counted
from 0) the answers it gets. -/
structure CycleEnv where
  getResult : List MessageTransaction × Option Error
  unitEnv : Nat → UnitEnv

/-- The loop `for _, msg := range messages` that starts one goroutine per
message; the first argument is the index of the head of the list. -/
def fanOut (env : Nat → UnitEnv) : Nat → List MessageTransaction → List UnitRun
  | _, [] => []
  | i, m :: ms => runUnit (env i) m :: fanOut env (i + 1) ms

/-- What one cycle does: the calls of the cycle body itself, then one run
per started unit, in batch order.  The units run concurrently: each unit's
trace is ordered, the order of calls of different units is not fixed. -/
structure CycleRun where
  fetch : List Call
  units : List UnitRun
  deriving DecidableEq, Repr

/-- The method `Worker.process`: one processing cycle. -/
def process (w : Worker) (env : CycleEnv) : CycleRun :=
  let messageFilter : MessageFilter := { Status := [STATUS_PENDING, STATUS_FAILED] }
  let messageOptions : MessageOptions := { Limit := w.limit }
  let fetch := [Call.GetMessages messageFilter messageOptions]
  match env.getResult.2 with
  | some _ => { fetch := fetch, units := [] }
  | none =>
    if env.getResult.1.length == 0 then
      { fetch := fetch, units := [] }
    else
      { fetch := fetch, units := fanOut env.unitEnv 0 env.getResult.1 }

/-- All calls of a cycle, with the units laid out one after the other. -/
def CycleRun.allCalls (r : CycleRun) : List Call :=
  r.fetch ++ (r.units.map UnitRun.trace).flatten

/-- The status writes among a list of calls, in order. -/
def statusWrites (tr : List Call) : List Call :=
  tr.filter Call.isUpdateMessageStatus

/-- The run of the unit started for the `i`-th message of the batch of a
cycle, if the cycle starts one. -/
def unitAt (w : Worker) (env : CycleEnv) (i : Nat) : Option UnitRun :=
  (process w env).units[i]?

/-! ## Concrete data used to exercise the statements -/

/-- A worker as the tests build it: `NewWorker(..., 2)`. -/
def worker2 : Worker := (NewWorker 2 { chans := [], tickers := [] }).1

/-- A message whose content is 1001 bytes long (1001 times the letter a). -/
def msgLong : MessageTransaction :=
  { ID := 7, Content := String.mk (List.replicate 1001 'a'), Recipient := "+905551234567",
    Status := STATUS_PENDING, SentAt := none, CreatedAt := 0 }

/-- A valid message. -/
def msgHi : MessageTransaction :=
  { ID := 8, Content := "hi", Recipient := "+90555", Status := STATUS_PENDING,
    SentAt := none, CreatedAt := 0 }

/-- A message with an empty recipient. -/
def msgNoRecipient : MessageTransaction :=
  { ID := 9, Content := "hi", Recipient := "", Status := STATUS_FAILED,
    SentAt := none, CreatedAt := 0 }

/-- Every collaborator succeeds; the provider id is `msg-1`. -/
def envAllOk : UnitEnv :=
  { sendResult := (some { Message := "Accepted", MessageID := "msg-1" }, none),
    updateResult := fun _ => none,
    cacheResult := none,
    clock := fun k => 100 + k }

/-- Delivery fails, every status write fails. -/
def envSendFails : UnitEnv :=
  { sendResult := (none, some "send failed"),
    updateResult := fun _ => some "update error",
    cacheResult := none,
    clock := fun k => 100 + k }

/-- Delivery succeeds, every status write fails. -/
def envUpdateFails : UnitEnv :=
  { sendResult := (some { Message := "Accepted", MessageID := "msg-1" }, none),
    updateResult := fun _ => some "update error",
    cacheResult := none,
    clock := fun k => 100 + k }

/-- Delivery succeeds, the first two status writes fail, the third succeeds. -/
def envThirdOk : UnitEnv :=
  { sendResult := (some { Message := "Accepted", MessageID := "msg-1" }, none),
    updateResult := fun k => if k < 2 then some "update error" else none,
    cacheResult := none,
    clock := fun k => 100 + k }

/-- Delivery and the status write succeed, the cache write fails. -/
def envCacheFails : UnitEnv :=
  { sendResult := (some { Message := "Accepted", MessageID := "msg-1" }, none),
    updateResult := fun _ => none,
    cacheResult := some "redis error",
    clock := fun k => 100 + k }

/-- A cycle whose batch is the single 1001-byte message. -/
def cycleLong : CycleEnv :=
  { getResult := ([msgLong], none), unitEnv := fun _ => envAllOk }

/-- A cycle whose batch is a valid message followed by one without recipient. -/
def cycleMixed (u : UnitEnv) : CycleEnv :=
  { getResult := ([msgHi, msgNoRecipient], none), unitEnv := fun _ => u }

/-- A cycle whose fetch fails. -/
def cycleFetchError : CycleEnv :=
  { getResult := ([], some "db error"), unitEnv := fun _ => envAllOk }

/-! ## Start, Stop and the processing loop (`worker.go`) -/

/-- The constant `time.Minute`, in nanoseconds. -/
def Minute : Nat := 60 * 1000000000

/-- Where a processing loop (the goroutine launched by `Start`) stands:
about to make its first call of `w.process()`; inside a call of
`w.process()`; blocked in the `select`, on the channel `done` and the ticker
`ticker` that the fields `w.done` and `w.ticker` held when it entered the
`select`; or returned. -/
inductive LoopPc where
  | first
  | inCycle
  | waiting (done ticker : Nat)
  | exited
  deriving DecidableEq, Repr

/-- A processing loop: where it stands and how many calls of `w.process()`
it has begun. -/
structure Loop where
  pc : LoopPc
  cycles : Nat
  deriving DecidableEq, Repr

/-- The worker together with the channels and tickers it has made and the
processing loops it has launched. -/
structure Sys where
  w : Worker
  rt : Runtime
  loops : List Loop
  deriving DecidableEq, Repr

/-- A worker just returned by `NewWorker(..., limit)`. -/
def initSys (limit : Int) : Sys :=
  { w := (NewWorker limit { chans := [], tickers := [] }).1,
    rt := (NewWorker limit { chans := [], tickers := [] }).2,
    loops := [] }

/-- The method `Worker.Start`, with the mutex held throughout: nothing if
`running`; else `running = true`, a new ticker of 2 minutes, a new `done`
channel, and a new processing loop. -/
def Start (s : Sys) : Sys :=
  if s.w.running then
    s
  else
    { w := { s.w with running := true,
                      ticker := some s.rt.tickers.length,
                      done := s.rt.chans.length },
      rt := { chans := s.rt.chans ++ [false],
              tickers := s.rt.tickers ++ [(2 * Minute, false)] },
      loops := s.loops ++ [{ pc := LoopPc.first, cycles := 0 }] }

/-- The method `Ticker.Stop` on the ticker with handle `tk`. -/
def stopTicker : Nat → List (Nat × Bool) → List (Nat × Bool)
  | _, [] => []
  | 0, t :: ts => (t.1, true) :: ts
  | k + 1, t :: ts => t :: stopTicker k ts

/-- The builtin `close` on the channel with handle `ch`, known to be open. -/
def closeChan : Nat → List Bool → List Bool
  | _, [] => []
  | 0, _ :: cs => true :: cs
  | k + 1, c :: cs => c :: closeChan k cs

/-- The method `Worker.Stop`, with the mutex held throughout: nothing if not
`running`; else `running = false`, `w.ticker.Stop()`, `close(w.done)`.  The
result is `none` when the call panics: `w.ticker` is nil, or `w.done` is
already closed. -/
def Stop (s : Sys) : Option Sys :=
  if !s.w.running then
    some s
  else
    match s.w.ticker with
    | none => none
    | some tk =>
      match s.rt.chans[s.w.done]? with
      | some false =>
        some { w := { s.w with running := false },
               rt := { chans := closeChan s.w.done s.rt.chans,
                       tickers := stopTicker tk s.rt.tickers },
               loops := s.loops }
      | _ => none

/-- A call made on the worker from outside. -/
inductive Op where
  | Start
  | Stop
  deriving DecidableEq, Repr

def applyOp : Op → Sys → Option Sys
  | Op.Start, s => some (Start s)
  | Op.Stop, s => Stop s

/-- A sequence of `Start` and `Stop` calls, one after the other; `none` if
one of them panics. -/
def runOps : List Op → Sys → Option Sys
  | [], s => some s
  | o :: os, s =>
    match applyOp o s with
    | none => none
    | some t => runOps os t

/-- The number of tickers that have not been stopped. -/
def activeTickers (s : Sys) : Nat :=
  (s.rt.tickers.filter (fun t => !t.2)).length

/-- One step of the system: a call from outside, or a step of the `i`-th
processing loop. -/
inductive Action where
  | call (o : Op)
  | loopBegin (i : Nat)
  | loopFinish (i : Nat)
  | loopTick (i : Nat)
  | loopExit (i : Nat)
  deriving DecidableEq, Repr

/-- Replace the `i`-th loop. -/
def setLoop (s : Sys) (i : Nat) (l : Loop) : Sys :=
  { s with loops := s.loops.set i l }

/-- The body of the goroutine of `Start`, one step at a time; `none` when
the step cannot be taken in this state.
* `loopBegin`: the statement `w.process() // Run first time` begins.
* `loopFinish`: a call of `w.process()` returns and the loop enters the
  `select`, evaluating `w.done` and `w.ticker.C` at that moment.
* `loopTick`: the case `<-w.ticker.C` is taken and `w.process()` begins; a
  ticker delivers ticks only while it has not been stopped.
* `loopExit`: the case `<-w.done` is taken, which needs the channel closed
  (nothing is ever sent on it), and the goroutine returns. -/
def step : Action → Sys → Option Sys
  | Action.call o, s => applyOp o s
  | Action.loopBegin i, s =>
    match s.loops[i]? with
    | some { pc := LoopPc.first, cycles := n } =>
      some (setLoop s i { pc := LoopPc.inCycle, cycles := n + 1 })
    | _ => none
  | Action.loopFinish i, s =>
    match s.loops[i]?, s.w.ticker with
    | some { pc := LoopPc.inCycle, cycles := n }, some tk =>
      some (setLoop s i { pc := LoopPc.waiting s.w.done tk, cycles := n })
    | _, _ => none
  | Action.loopTick i, s =>
    match s.loops[i]? with
    | some { pc := LoopPc.waiting _ tk, cycles := n } =>
      match s.rt.tickers[tk]? with
      | some (_, false) => some (setLoop s i { pc := LoopPc.inCycle, cycles := n + 1 })
      | _ => none
    | _ => none
  | Action.loopExit i, s =>
    match s.loops[i]? with
    | some { pc := LoopPc.waiting d _, cycles := n } =>
      match s.rt.chans[d]? with
      | some true => some (setLoop s i { pc := LoopPc.exited, cycles := n })
      | _ => none
    | _ => none

/-- A sequence of steps; `none` if one of them cannot be taken. -/
def run : List Action → Sys → Option Sys
  | [], s => some s
  | a :: as, s =>
    match step a s with
    | none => none
    | some t => run as t

/-- The shape of the worker's state between two calls: while running, the
current ticker is the one made last and the only one not stopped, and the
current `done` channel is the one made last and is open; while not running,
every ticker is stopped. -/
def Sys.wellFormed (s : Sys) : Prop :=
  (s.w.running = true →
    ∃ (old : List (Nat × Bool)) (p : Nat) (oldc : List Bool),
      s.rt.tickers = old ++ [(p, false)] ∧ (∀ t ∈ old, t.2 = true) ∧
      s.w.ticker = some old.length ∧ s.rt.chans = oldc ++ [false] ∧
      s.w.done = oldc.length) ∧
  (s.w.running = false → ∀ t ∈ s.rt.tickers, t.2 = true)

/-- Whether the last call of a sequence is `Start`; `b` answers for the
empty sequence. -/
def lastIsStart (b : Bool) : List Op → Bool
  | [] => b
  | Op.Start :: os => lastIsStart true os
  | Op.Stop :: os => lastIsStart false os

/-- A loop that has not begun its first cycle has counted none; one that is
past it has counted at least one. -/
def Loop.ok (l : Loop) : Bool :=
  match l.pc with
  | LoopPc.first => l.cycles == 0
  | _ => decide (1 ≤ l.cycles)

/-! ## The message store (`store/mongo/store.go`, `mongo_params.go`) -/

/-- The collection `message`: its documents.  Mongo keeps `_id` unique;
where that matters it is a hypothesis on the list. -/
abbrev Collection := List MessageTransaction

/-- The method `MessageFilter.ToFilter` applied to the empty base filter, as
a test on a document: `status $in f.Status` if `f.Status` is not empty, no
condition otherwise. -/
def MessageFilter.ToFilter (f : MessageFilter) (d : MessageTransaction) : Bool :=
  if f.Status.length > 0 then f.Status.contains d.Status else true

/-- The method `MessageOptions.ToOptions`: the limit of the find, set only
if `Limit > 0`. -/
def MessageOptions.ToOptions (o : MessageOptions) : Option Nat :=
  if o.Limit > 0 then some o.Limit.toNat else none

/-- The method `store.GetMessages`: the documents that pass the filter,
sorted by `created_at` ascending (documents with equal `created_at` keep
their order), cut at the limit if one is set.  `dbErr` is the error of the
database, if any. -/
def mongostore.GetMessages (docs : Collection) (dbErr : Option Error) (f : MessageFilter)
    (o : MessageOptions) : List MessageTransaction × Option Error :=
  match dbErr with
  | some e => ([], some e)
  | none =>
    let sorted := (docs.filter f.ToFilter).insertionSort (fun a b => a.CreatedAt ≤ b.CreatedAt)
    match o.ToOptions with
    | some n => (sorted.take n, none)
    | none => (sorted, none)

/-- The update `UpdateOne({_id: id}, {$set: update})` of
`store.UpdateMessageStatus`, where `update` holds `status` and, only if
`sentAt` is not nil, `sent_at`: it changes the first document with that
`_id`, and nothing if there is none. -/
def mongostore.updateOne (id : ObjectID) (status : String) (sentAt : Option Time) :
    Collection → Collection
  | [] => []
  | d :: ds =>
    if d.ID = id then
      { d with Status := status,
               SentAt := match sentAt with
                 | some t => some t
                 | none => d.SentAt } :: ds
    else
      d :: mongostore.updateOne id status sentAt ds

/-- The method `store.UpdateMessageStatus`; with an error of the database
the collection is returned as it was. -/
def mongostore.UpdateMessageStatus (docs : Collection) (dbErr : Option Error)
    (id : ObjectID) (status : String) (sentAt : Option Time) : Collection × Option Error :=
  match dbErr with
  | some e => (docs, some e)
  | none => (mongostore.updateOne id status sentAt docs, none)

/-- The effect on the collection of a call of the worker that takes effect:
a status write changes it, no other call does. -/
def applyCall (docs : Collection) : Call → Collection
  | Call.UpdateMessageStatus id status sentAt =>
    (mongostore.UpdateMessageStatus docs none id status sentAt).1
  | _ => docs

/-- The collection after the calls `cs` have taken effect, in this order. -/
def applyCalls (docs : Collection) (cs : List Call) : Collection :=
  cs.foldl applyCall docs

/-- The data-model invariant of a message: `sent_at` is set if and only if
the status is "sent". -/
def sentAtOk (d : MessageTransaction) : Bool :=
  d.SentAt.isSome == (d.Status == STATUS_SENT)

/-- A collection used to exercise the statements: one message of each
status, with distinct ids. -/
def docs4 : Collection :=
  [{ ID := 1, Content := "a", Recipient := "+1", Status := STATUS_SENT, SentAt := some 5,
     CreatedAt := 1 },
   { ID := 2, Content := "b", Recipient := "+2", Status := STATUS_FAILED, SentAt := none,
     CreatedAt := 4 },
   { ID := 3, Content := "", Recipient := "+3", Status := STATUS_PENDING, SentAt := none,
     CreatedAt := 3 },
   { ID := 4, Content := "d", Recipient := "+4", Status := STATUS_INVALID, SentAt := none,
     CreatedAt := 2 }]

/-- A cycle on `docs4`: the fetch answers as the store does, every unit gets
the answers `u`. -/
def cycleDocs4 (w : Worker) (u : UnitEnv) : CycleEnv :=
  { getResult := mongostore.GetMessages docs4 none
      { Status := [STATUS_PENDING, STATUS_FAILED] } { Limit := w.limit },
    unitEnv := fun _ => u }

/-! ## The delivery client (`client/messageclient/client.go`) -/

/-- The struct `MessageRequest` of `client.go`. -/
structure MessageRequest where
  To : String
  Content : String
  deriving DecidableEq, Repr

/-- The struct `messageClient`; its `*http.Client` is represented by the
answers of the exchange (`ClientEnv.roundTrip`). -/
structure messageClient where
  url : String
  authKey : String
  maxRetries : Int
  retryDelay : Nat
  deriving DecidableEq, Repr

/-- The function `NewClient`. -/
def NewClient (url authKey : String) (maxRetries : Int) (retryDelay : Nat) : messageClient :=
  { url := url, authKey := authKey, maxRetries := maxRetries, retryDelay := retryDelay }

/-- The method `http.Header.Set`: the value replaces what the key held. -/
def headerSet (h : List (String × String)) (key value : String) : List (String × String) :=
  (key, value) :: h.filter (fun kv => kv.1 != key)

/-- The method `http.Header.Get`. -/
def headerGet (h : List (String × String)) (key : String) : Option String :=
  (h.find? (fun kv => kv.1 == key)).map (fun kv => kv.2)

/-- An `http.Request` as far as `SendMessage` sets it; `β` is the type of
bodies. -/
structure HttpRequest (β : Type) where
  Method : String
  URL : String
  Header : List (String × String)
  Body : β

/-- An `http.Response` as far as `SendMessage` reads it. -/
structure HttpResponse (β : Type) where
  StatusCode : Int
  Status : String
  Body : β

/-- What lies outside `client.go`: `json.Marshal` on a `MessageRequest`; the
error, if any, of `http.NewRequestWithContext` for a method and a URL; the
exchange `c.c.Do(req)`, which ends in a transport error or a response; and
`json.NewDecoder(res.Body).Decode(&hookRes)` on the zero `hookRes`, which
ends in an error or the decoded `MessageResponse`. -/
structure ClientEnv (β : Type) where
  marshal : MessageRequest → Except Error β
  newRequestErr : String → String → Option Error
  roundTrip : HttpRequest β → Except Error (HttpResponse β)
  decode : β → Except Error MessageResponse

/-- What a call of `messageClient.SendMessage` returns, a response pointer
and an error, together with the request it handed to `c.c.Do`, if it got
that far. -/
structure SendOutcome (β : Type) where
  res : Option MessageResponse
  err : Option Error
  request : Option (HttpRequest β)

def StatusOK : Int := 200
def StatusAccepted : Int := 202
def MethodPost : String := "POST"

/-- The method `messageClient.SendMessage`. -/
def messageClient.SendMessage {β : Type} (c : messageClient) (env : ClientEnv β)
    (recipient content : String) : SendOutcome β :=
  let payload : MessageRequest := { To := recipient, Content := content }
  match env.marshal payload with
  | Except.error e =>
    { res := none, err := some ("failed to marshal request: " ++ e), request := none }
  | Except.ok jsonData =>
    match env.newRequestErr MethodPost c.url with
    | some e =>
      { res := none,
        err := some ("getting support url config failed while creating http request, " ++ e),
        request := none }
    | none =>
      let req0 : HttpRequest β :=
        { Method := MethodPost, URL := c.url, Header := [], Body := jsonData }
      let req1 : HttpRequest β :=
        { req0 with Header := headerSet req0.Header "Content-Type" "application/json" }
      let req : HttpRequest β :=
        { req1 with Header := headerSet req1.Header "x-ins-auth-key" c.authKey }
      match env.roundTrip req with
      | Except.error e =>
        { res := none,
          err := some ("getting support url config failed while doing http request, " ++ e),
          request := some req }
      | Except.ok res =>
        if res.StatusCode != StatusOK && res.StatusCode != StatusAccepted then
          { res := none,
            err := some
              ("getting support url config failed while doing http request, " ++ res.Status),
            request := some req }
        else
          match env.decode res.Body with
          | Except.error e =>
            { res := none,
              err := some
                ("getting support url config failed while decoding support config, " ++ e),
              request := some req }
          | Except.ok hookRes => { res := some hookRes, err := none, request := some req }

/-- A client as the tests build it. -/
def client0 : messageClient := NewClient "http://localhost:8080" "test-key" 3 1000000000

/-- A remote end used to exercise the statements: bodies are the decoded
values themselves, the server answers `status` with the body `body`. -/
def envServer (status : Int) (body : Except Error MessageResponse) :
    ClientEnv (MessageRequest ⊕ Except Error MessageResponse) :=
  { marshal := fun p => Except.ok (Sum.inl p),
    newRequestErr := fun _ _ => none,
    roundTrip := fun _ =>
      Except.ok { StatusCode := status, Status := toString status, Body := Sum.inr body },
    decode := fun b =>
      match b with
      | Sum.inr r => r
      | Sum.inl _ => Except.error "not a response" }

/-! ## The service (`service.go`, `sender.go`, `envvars.go`) -/

/-- The struct `APIError` of `apierror.go`, as far as the service uses it:
no method of the service ever builds one. -/
structure APIError where
  Message : String
  Name : String
  deriving DecidableEq, Repr

/-- The struct `StartStopMessageSendingRequest` of `sender.go`. -/
structure StartStopMessageSendingRequest where
  IPAddress : String
  Action : String
  deriving DecidableEq, Repr

/-- The struct `StartStopMessageSendingResponse` of `sender.go`. -/
structure StartStopMessageSendingResponse where
  Result : Option APIError
  Status : String
  deriving DecidableEq, Repr

/-- The struct `RetrieveSentMessagesResponse` of `sender.go`. -/
structure RetrieveSentMessagesResponse where
  Result : Option APIError
  Messages : List MessageTransaction
  deriving DecidableEq, Repr

/-- The struct `Configs` of `envvars.go`; `SendMessageDelay` is a
`time.Duration`, in nanoseconds. -/
structure Configs where
  StartMessageCount : Int
  SendMessageDelay : Int
  deriving DecidableEq, Repr

/-- The struct `Service`: its configuration; the worker it points to is the
`Sys` passed to its methods, its stores are represented by their answers. -/
structure Service where
  envConfigs : Configs
  env : String
  deriving DecidableEq, Repr

/-- What a method of the service that uses the worker does: the value it
returns, the methods of the worker it called, in order, and the state of the
worker afterwards. -/
structure ServiceRun (ρ : Type) where
  resp : ρ
  calls : List Op
  sys : Sys

/-- The method `Service.StartStopMessageSending`; `none` if the call of
`worker.Stop` panics. -/
def Service.StartStopMessageSending (_svc : Service) (s : Sys)
    (req : StartStopMessageSendingRequest) :
    Option (ServiceRun StartStopMessageSendingResponse) :=
  if req.Action == "start" then
    some { resp := { Result := none, Status := "started" }, calls := [Op.Start],
           sys := Start s }
  else if req.Action == "stop" then
    match Stop s with
    | none => none
    | some t =>
      some { resp := { Result := none, Status := "stopped" }, calls := [Op.Stop], sys := t }
  else
    some { resp := { Result := none, Status := "" }, calls := [], sys := s }

/-- The method `Service.RetrieveSentMessages`: the response, and the calls
it makes on the store; `getResult` is what `GetMessages` answers. -/
def Service.RetrieveSentMessages (_svc : Service)
    (getResult : List MessageTransaction × Option Error) :
    RetrieveSentMessagesResponse × List Call :=
  let calls := [Call.GetMessages { Status := [STATUS_SENT] } { Limit := 0 }]
  match getResult.2 with
  | some _ => ({ Result := none, Messages := [] }, calls)
  | none => ({ Result := none, Messages := getResult.1 }, calls)

/-- The method `Service.StartSendMessage`; `count` is an `int`, `delay` a
`time.Duration`. -/
def Service.StartSendMessage (_svc : Service) (s : Sys) (_count : Int) (_delay : Int) :
    ServiceRun Unit :=
  { resp := (), calls := [Op.Start], sys := Start s }

/-! ## The dedup cache (`store/redis/store.go`) -/

/-- The constant `time.Hour`, in nanoseconds. -/
def Hour : Nat := 60 * Minute

/-- The constant `messageExpiration` of `store/redis/store.go`. -/
def messageExpiration : Nat := 1 * Hour

/-- A Redis `SET key value` with an expiration in nanoseconds. -/
structure RedisSet where
  key : String
  value : Time
  expiration : Nat
  deriving DecidableEq, Repr

/-- The method `store.CacheMessageID` of `store/redis/store.go`: the error
it returns and the commands it sends; `now` is the value of `time.Now()`,
`setErr` the error of the `SET`, if any. -/
def redisstore.CacheMessageID (now : Time) (setErr : Option Error) (id : String) :
    Option Error × List RedisSet :=
  let data := now
  let cmds := [({ key := id, value := data, expiration := messageExpiration } : RedisSet)]
  match setErr with
  | some err => (some ("setting msg failed, " ++ err), cmds)
  | none => (none, cmds)

/-- A service as the tests build it. -/
def service0 : Service :=
  { envConfigs := { StartMessageCount := 0, SendMessageDelay := 0 }, env := "test" }

/-! ## The mutex of the worker (`worker.go`, lines 43 to 85) -/

/-- The fields of `Worker` that `Start`, `Stop` and the processing loop read
or write. -/
inductive Field where
  | running
  | ticker
  | done
  deriving DecidableEq, Repr

/-- The statements of `Start`, `Stop` and the goroutine of `Start` that
touch the mutex or one of the three fields, call `process`, or launch the
goroutine. -/
inductive Stmt where
  | lock
  | unlock
  | read (f : Field)
  | write (f : Field)
  | process
  | spawn
  deriving DecidableEq, Repr

/-- The statements `Worker.Start` executes, in order: `w.mu.Lock()`, the test
of `w.running`, and unless it returns there, the three assignments and the
`go` statement; the deferred `w.mu.Unlock()` runs at the return. -/
def StartBody (running : Bool) : List Stmt :=
  if running then
    [Stmt.lock, Stmt.read Field.running, Stmt.unlock]
  else
    [Stmt.lock, Stmt.read Field.running, Stmt.write Field.running, Stmt.write Field.ticker,
     Stmt.write Field.done, Stmt.spawn, Stmt.unlock]

/-- The statements `Worker.Stop` executes, in order: `w.mu.Lock()`, the test
of `w.running`, and unless it returns there, `w.running = false`,
`w.ticker.Stop()` and `close(w.done)`, which read the two fields; the
deferred `w.mu.Unlock()` runs at the return. -/
def StopBody (running : Bool) : List Stmt :=
  if running then
    [Stmt.lock, Stmt.read Field.running, Stmt.write Field.running, Stmt.read Field.ticker,
     Stmt.read Field.done, Stmt.unlock]
  else
    [Stmt.lock, Stmt.read Field.running, Stmt.unlock]

/-- The statements the goroutine of `Start` executes when it takes the
ticker case `ticks` times and then the `done` case: `w.process()`, then on
each entry of the `select` the evaluation of `w.done` and of `w.ticker.C`,
followed by `w.process()` on a tick. -/
def loopBody : Nat → List Stmt
  | 0 => [Stmt.process, Stmt.read Field.done, Stmt.read Field.ticker]
  | n + 1 => loopBody n ++ [Stmt.process, Stmt.read Field.done, Stmt.read Field.ticker]

/-- Each statement of a goroutine paired with whether that goroutine holds
the mutex when it executes it; `held` says whether it holds it at the
start. -/
def withLock : Bool → List Stmt → List (Stmt × Bool)
  | _, [] => []
  | held, Stmt.lock :: rest => (Stmt.lock, held) :: withLock true rest
  | held, Stmt.unlock :: rest => (Stmt.unlock, held) :: withLock false rest
  | held, st :: rest => (st, held) :: withLock held rest

/-- Whether a statement reads or writes one of the three fields. -/
def Stmt.isAccess : Stmt → Bool
  | Stmt.read _ => true
  | Stmt.write _ => true
  | _ => false

/-! ## The delivery client as the delivery call of a unit -/

/-- The answers a unit gets when its delivery call is `c.SendMessage` on the
remote end `cenv` and every write to the store and the cache succeeds. -/
def unitEnvOfClient {β : Type} (c : messageClient) (cenv : ClientEnv β)
    (m : MessageTransaction) : UnitEnv :=
  { sendResult := ((c.SendMessage cenv m.Recipient m.Content).res,
                   (c.SendMessage cenv m.Recipient m.Content).err),
    updateResult := fun _ => none,
    cacheResult := none,
    clock := fun k => 100 + k }

/-- A message whose content is 501 times the two-byte letter U+00E9. -/
def msgTwoByte : MessageTransaction :=
  { ID := 10, Content := String.mk (List.replicate 501 (Char.ofNat 233)),
    Recipient := "+905551234567", Status := STATUS_PENDING, SentAt := none, CreatedAt := 0 }

/-- A cycle whose batch is the single message `m`, every unit getting the
answers `u`. -/
def cycleOne (m : MessageTransaction) (u : UnitEnv) : CycleEnv :=
  { getResult := ([m], none), unitEnv := fun _ => u }

/-! ## Helper lemmas -/

theorem len_replicate_a (n : Nat) : len (String.mk (List.replicate n 'a')) = n := by
  have go : ∀ k : Nat, String.utf8ByteSize.go (List.replicate k 'a') = k := by
    intro k
    induction k with
    | zero => rfl
    | succ j ih =>
      show String.utf8ByteSize.go (List.replicate j 'a') + Char.utf8Size 'a' = j + 1
      rw [ih]
      rfl
  exact go n

theorem isValid_false_of_long (m : MessageTransaction) (h : len m.Content > 1000) :
    m.IsValid = false := by
  simp [MessageTransaction.IsValid, MaxMessageLength, h]

theorem runUnit_invalid (env : UnitEnv) (m : MessageTransaction) (h : m.IsValid = false) :
    runUnit env m =
      { msg := m, completion := Completion.returned,
        trace := [Call.UpdateMessageStatus m.ID STATUS_INVALID none] } := by
  simp [runUnit, processMessage, h, UpdateMessageStatus, UnitState.init]

theorem fanOut_getElem? (env : Nat → UnitEnv) (ms : List MessageTransaction) :
    ∀ (k i : Nat), (fanOut env k ms)[i]? = (ms[i]?).map (fun m => runUnit (env (k + i)) m) := by
  induction ms with
  | nil => intro k i; simp [fanOut]
  | cons m ms ih =>
    intro k i
    cases i with
    | zero => simp [fanOut]
    | succ j =>
      simp only [fanOut, List.getElem?_cons_succ, ih]
      have : k + 1 + j = k + (j + 1) := by omega
      rw [this]

theorem fanOut_length (env : Nat → UnitEnv) (ms : List MessageTransaction) :
    ∀ k : Nat, (fanOut env k ms).length = ms.length := by
  induction ms with
  | nil => intro k; rfl
  | cons m ms ih => intro k; simp [fanOut, ih]

theorem process_fetch (w : Worker) (env : CycleEnv) :
    (process w env).fetch =
      [Call.GetMessages { Status := [STATUS_PENDING, STATUS_FAILED] } { Limit := w.limit }] := by
  unfold process
  cases h : env.getResult.2 with
  | some e => simp
  | none =>
    by_cases hl : env.getResult.1.length = 0 <;> simp [hl]

theorem process_units_ok (w : Worker) (env : CycleEnv) (h : env.getResult.2 = none) :
    (process w env).units = fanOut env.unitEnv 0 env.getResult.1 := by
  unfold process
  by_cases hl : env.getResult.1.length = 0
  · have hnil : env.getResult.1 = [] := List.length_eq_zero.mp hl
    simp [h, hnil, fanOut]
  · simp [h, hl]

theorem process_units_err (w : Worker) (env : CycleEnv) (e : Error)
    (h : env.getResult.2 = some e) : (process w env).units = [] := by
  unfold process
  simp [h]

theorem unitAt_eq (w : Worker) (env : CycleEnv) (i : Nat) (m : MessageTransaction)
    (hget : env.getResult.2 = none) (hm : env.getResult.1[i]? = some m) :
    unitAt w env i = some (runUnit (env.unitEnv i) m) := by
  unfold unitAt
  rw [process_units_ok w env hget, fanOut_getElem?, hm]
  simp

theorem runUnit_sendErr (env : UnitEnv) (m : MessageTransaction) (e : Error)
    (hv : m.IsValid = true) (hs : env.sendResult.2 = some e) :
    runUnit env m =
      { msg := m, completion := Completion.returned,
        trace := Call.SendMessage m.Recipient m.Content ::
          (if env.updateResult 0 = none then
            [Call.UpdateMessageStatus m.ID STATUS_FAILED none]
          else if env.updateResult 1 = none then
            [Call.UpdateMessageStatus m.ID STATUS_FAILED none, Call.Sleep 100,
             Call.UpdateMessageStatus m.ID STATUS_FAILED none]
          else if env.updateResult 2 = none then
            [Call.UpdateMessageStatus m.ID STATUS_FAILED none, Call.Sleep 100,
             Call.UpdateMessageStatus m.ID STATUS_FAILED none, Call.Sleep 100,
             Call.UpdateMessageStatus m.ID STATUS_FAILED none]
          else
            [Call.UpdateMessageStatus m.ID STATUS_FAILED none, Call.Sleep 100,
             Call.UpdateMessageStatus m.ID STATUS_FAILED none, Call.Sleep 100,
             Call.UpdateMessageStatus m.ID STATUS_FAILED none, Call.Sleep 100]) } := by
  cases h0 : env.updateResult 0 <;> cases h1 : env.updateResult 1 <;>
    cases h2 : env.updateResult 2 <;>
    simp [runUnit, processMessage, hv, hs, SendMessage, retryFailed, UpdateMessageStatus,
      timeSleep, UnitState.init, h0, h1, h2]

theorem runUnit_sendOk (env : UnitEnv) (m : MessageTransaction) (r : MessageResponse)
    (hv : m.IsValid = true) (hs : env.sendResult = (some r, none)) :
    runUnit env m =
      { msg := m, completion := Completion.returned,
        trace := Call.SendMessage m.Recipient m.Content ::
          (if env.updateResult 0 = none then
            [Call.UpdateMessageStatus m.ID STATUS_SENT (some (env.clock 0)),
             Call.CacheMessageID r.MessageID]
          else if env.updateResult 1 = none then
            [Call.UpdateMessageStatus m.ID STATUS_SENT (some (env.clock 0)), Call.Sleep 100,
             Call.UpdateMessageStatus m.ID STATUS_SENT (some (env.clock 1)),
             Call.CacheMessageID r.MessageID]
          else if env.updateResult 2 = none then
            [Call.UpdateMessageStatus m.ID STATUS_SENT (some (env.clock 0)), Call.Sleep 100,
             Call.UpdateMessageStatus m.ID STATUS_SENT (some (env.clock 1)), Call.Sleep 100,
             Call.UpdateMessageStatus m.ID STATUS_SENT (some (env.clock 2)),
             Call.CacheMessageID r.MessageID]
          else
            [Call.UpdateMessageStatus m.ID STATUS_SENT (some (env.clock 0)), Call.Sleep 100,
             Call.UpdateMessageStatus m.ID STATUS_SENT (some (env.clock 1)), Call.Sleep 100,
             Call.UpdateMessageStatus m.ID STATUS_SENT (some (env.clock 2)),
             Call.Sleep 100]) } := by
  cases h0 : env.updateResult 0 <;> cases h1 : env.updateResult 1 <;>
    cases h2 : env.updateResult 2 <;>
    simp [runUnit, processMessage, hv, hs, SendMessage, retrySent, UpdateMessageStatus,
      CacheMessageID, timeNow, timeSleep, UnitState.init, h0, h1, h2]

theorem runUnit_sendOk_allFail (env : UnitEnv) (m : MessageTransaction)
    (hv : m.IsValid = true) (hs : env.sendResult.2 = none)
    (h0 : env.updateResult 0 ≠ none) (h1 : env.updateResult 1 ≠ none)
    (h2 : env.updateResult 2 ≠ none) :
    runUnit env m =
      { msg := m, completion := Completion.returned,
        trace :=
          [Call.SendMessage m.Recipient m.Content,
           Call.UpdateMessageStatus m.ID STATUS_SENT (some (env.clock 0)), Call.Sleep 100,
           Call.UpdateMessageStatus m.ID STATUS_SENT (some (env.clock 1)), Call.Sleep 100,
           Call.UpdateMessageStatus m.ID STATUS_SENT (some (env.clock 2)),
           Call.Sleep 100] } := by
  cases h0c : env.updateResult 0 <;> cases h1c : env.updateResult 1 <;>
    cases h2c : env.updateResult 2 <;>
    first
    | exact absurd h0c h0
    | exact absurd h1c h1
    | exact absurd h2c h2
    | simp [runUnit, processMessage, hv, hs, SendMessage, retrySent, UpdateMessageStatus,
        timeNow, timeSleep, UnitState.init, h0c, h1c, h2c]

theorem runUnit_sendErr_writes (env : UnitEnv) (m : MessageTransaction) (e : Error)
    (hv : m.IsValid = true) (hs : env.sendResult.2 = some e) :
    statusWrites (runUnit env m).trace =
      List.replicate
        (if env.updateResult 0 = none then 1 else if env.updateResult 1 = none then 2 else 3)
        (Call.UpdateMessageStatus m.ID STATUS_FAILED none) := by
  rw [runUnit_sendErr env m e hv hs]
  by_cases h0 : env.updateResult 0 = none
  · simp [h0, statusWrites, Call.isUpdateMessageStatus, List.replicate]
  · by_cases h1 : env.updateResult 1 = none
    · simp [h0, h1, statusWrites, Call.isUpdateMessageStatus, List.replicate]
    · by_cases h2 : env.updateResult 2 = none <;>
        simp [h0, h1, h2, statusWrites, Call.isUpdateMessageStatus, List.replicate]

theorem runUnit_sendOk_writes (env : UnitEnv) (m : MessageTransaction)
    (hv : m.IsValid = true) (hs : env.sendResult.2 = none) :
    statusWrites (runUnit env m).trace =
      (List.range
        (if env.updateResult 0 = none then 1 else if env.updateResult 1 = none then 2 else 3)).map
        (fun j => Call.UpdateMessageStatus m.ID STATUS_SENT (some (env.clock j))) := by
  have h3 : List.range 3 = [0, 1, 2] := by decide
  have h2 : List.range 2 = [0, 1] := by decide
  have h1r : List.range 1 = [0] := by decide
  cases hres : env.sendResult.1 <;> cases h0 : env.updateResult 0 <;>
    cases h1 : env.updateResult 1 <;> cases h2c : env.updateResult 2 <;>
    simp [runUnit, processMessage, hv, hs, hres, SendMessage, retrySent, UpdateMessageStatus,
      CacheMessageID, timeNow, timeSleep, UnitState.init, h0, h1, h2c, statusWrites,
      Call.isUpdateMessageStatus, h3, h2, h1r]

theorem retryFailed_noGet (env : UnitEnv) (id : ObjectID) :
    ∀ (n : Nat) (err : Option Error) (s : UnitState),
      (∀ c ∈ s.trace, c.isGetMessages = false) →
      ∀ c ∈ (retryFailed env id n err s).2.trace, c.isGetMessages = false := by
  intro n
  induction n with
  | zero => intro err s hs; simpa [retryFailed] using hs
  | succ k ih =>
    intro err s hs
    simp only [retryFailed]
    cases h : (UpdateMessageStatus env id STATUS_FAILED none s).1 with
    | none =>
      simp only [UpdateMessageStatus]
      intro c hc
      simp only [List.mem_append, List.mem_singleton] at hc
      rcases hc with hc | rfl
      · exact hs c hc
      · rfl
    | some e =>
      apply ih
      intro c hc
      simp only [UpdateMessageStatus, timeSleep, List.mem_append, List.mem_singleton] at hc
      rcases hc with (hc | rfl) | rfl
      · exact hs c hc
      · rfl
      · rfl

theorem retrySent_noGet (env : UnitEnv) (id : ObjectID) :
    ∀ (n : Nat) (err : Option Error) (s : UnitState),
      (∀ c ∈ s.trace, c.isGetMessages = false) →
      ∀ c ∈ (retrySent env id n err s).2.trace, c.isGetMessages = false := by
  intro n
  induction n with
  | zero => intro err s hs; simpa [retrySent] using hs
  | succ k ih =>
    intro err s hs
    simp only [retrySent]
    cases h : (UpdateMessageStatus env id STATUS_SENT (some (timeNow env s).1)
        (timeNow env s).2).1 with
    | none =>
      simp only [UpdateMessageStatus, timeNow]
      intro c hc
      simp only [List.mem_append, List.mem_singleton] at hc
      rcases hc with hc | rfl
      · exact hs c hc
      · rfl
    | some e =>
      apply ih
      intro c hc
      simp only [UpdateMessageStatus, timeNow, timeSleep, List.mem_append,
        List.mem_singleton] at hc
      rcases hc with (hc | rfl) | rfl
      · exact hs c hc
      · rfl
      · rfl

theorem processMessage_noGet (env : UnitEnv) (m : MessageTransaction) (s : UnitState)
    (hs : ∀ c ∈ s.trace, c.isGetMessages = false) :
    ∀ c ∈ (processMessage env m s).2.trace, c.isGetMessages = false := by
  have hsend : ∀ c ∈ (SendMessage env m.Recipient m.Content s).2.trace,
      c.isGetMessages = false := by
    intro c hc
    simp only [SendMessage, List.mem_append, List.mem_singleton] at hc
    rcases hc with hc | rfl
    · exact hs c hc
    · rfl
  unfold processMessage
  cases hv : m.IsValid with
  | false =>
    intro c hc
    simp only [Bool.not_false, if_true, UpdateMessageStatus, List.mem_append,
      List.mem_singleton] at hc
    rcases hc with hc | rfl
    · exact hs c hc
    · rfl
  | true =>
    simp only [Bool.not_true, Bool.false_eq_true, if_false]
    cases he : (SendMessage env m.Recipient m.Content s).1.2 with
    | some e => exact retryFailed_noGet env m.ID 3 _ _ hsend
    | none =>
      have hr := retrySent_noGet env m.ID 3 none _ hsend
      simp only []
      cases hr1 : (retrySent env m.ID 3 none (SendMessage env m.Recipient m.Content s).2).1 with
      | some e => exact hr
      | none =>
        simp only []
        cases hres : (SendMessage env m.Recipient m.Content s).1.1 with
        | none => exact hr
        | some res =>
          intro c hc
          simp only [CacheMessageID, List.mem_append, List.mem_singleton] at hc
          rcases hc with hc | rfl
          · exact hr c hc
          · rfl

theorem fanOut_noGet (env : Nat → UnitEnv) (ms : List MessageTransaction) :
    ∀ k : Nat, ∀ u ∈ fanOut env k ms, ∀ c ∈ u.trace, c.isGetMessages = false := by
  induction ms with
  | nil => intro k u hu; simp [fanOut] at hu
  | cons m ms ih =>
    intro k u hu
    simp only [fanOut, List.mem_cons] at hu
    rcases hu with rfl | hu
    · exact processMessage_noGet (env k) m UnitState.init (by simp [UnitState.init])
    · exact ih (k + 1) u hu

theorem process_units_noGet (w : Worker) (env : CycleEnv) :
    ∀ u ∈ (process w env).units, ∀ c ∈ u.trace, c.isGetMessages = false := by
  cases h : env.getResult.2 with
  | some e => rw [process_units_err w env e h]; simp
  | none => rw [process_units_ok w env h]; exact fanOut_noGet _ _ 0

theorem retryFailed_filter (p : Call → Bool)
    (hU : ∀ id st t, p (Call.UpdateMessageStatus id st t) = false)
    (hS : ∀ ms, p (Call.Sleep ms) = false) (env : UnitEnv) (id : ObjectID) :
    ∀ (n : Nat) (err : Option Error) (s : UnitState),
      (retryFailed env id n err s).2.trace.filter p = s.trace.filter p := by
  intro n
  induction n with
  | zero => intro err s; rfl
  | succ k ih =>
    intro err s
    simp only [retryFailed]
    cases h : (UpdateMessageStatus env id STATUS_FAILED none s).1 with
    | none => simp [UpdateMessageStatus, hU]
    | some e =>
      simp only []
      rw [ih]
      simp [UpdateMessageStatus, timeSleep, hU, hS]

theorem retrySent_filter (p : Call → Bool)
    (hU : ∀ id st t, p (Call.UpdateMessageStatus id st t) = false)
    (hS : ∀ ms, p (Call.Sleep ms) = false) (env : UnitEnv) (id : ObjectID) :
    ∀ (n : Nat) (err : Option Error) (s : UnitState),
      (retrySent env id n err s).2.trace.filter p = s.trace.filter p := by
  intro n
  induction n with
  | zero => intro err s; rfl
  | succ k ih =>
    intro err s
    simp only [retrySent]
    cases h : (UpdateMessageStatus env id STATUS_SENT (some (timeNow env s).1)
        (timeNow env s).2).1 with
    | none => simp [UpdateMessageStatus, timeNow, hU]
    | some e =>
      simp only []
      rw [ih]
      simp [UpdateMessageStatus, timeNow, timeSleep, hU, hS]

theorem runUnit_sends (env : UnitEnv) (m : MessageTransaction) :
    (runUnit env m).trace.filter Call.isSendMessage =
      if m.IsValid then [Call.SendMessage m.Recipient m.Content] else [] := by
  have hU : ∀ id st t, Call.isSendMessage (Call.UpdateMessageStatus id st t) = false :=
    fun _ _ _ => rfl
  have hS : ∀ ms, Call.isSendMessage (Call.Sleep ms) = false := fun _ => rfl
  cases hv : m.IsValid with
  | false => rw [runUnit_invalid env m hv]; simp [Call.isSendMessage]
  | true =>
    simp only [runUnit, processMessage, hv, Bool.not_true, Bool.false_eq_true, if_false,
      if_true]
    cases he : (SendMessage env m.Recipient m.Content UnitState.init).1.2 with
    | some e =>
      simp only []
      rw [retryFailed_filter Call.isSendMessage hU hS]
      simp [SendMessage, UnitState.init, Call.isSendMessage]
    | none =>
      simp only []
      cases hr : (retrySent env m.ID 3 none
          (SendMessage env m.Recipient m.Content UnitState.init).2).1 with
      | some e =>
        simp only []
        rw [retrySent_filter Call.isSendMessage hU hS]
        simp [SendMessage, UnitState.init, Call.isSendMessage]
      | none =>
        simp only []
        cases hres : (SendMessage env m.Recipient m.Content UnitState.init).1.1 with
        | none =>
          simp only []
          rw [retrySent_filter Call.isSendMessage hU hS]
          simp [SendMessage, UnitState.init, Call.isSendMessage]
        | some res =>
          simp only [CacheMessageID, List.filter_append]
          rw [retrySent_filter Call.isSendMessage hU hS]
          simp [SendMessage, UnitState.init, Call.isSendMessage]

theorem fanOut_sends (env : Nat → UnitEnv) (ms : List MessageTransaction) :
    ∀ k : Nat, (((fanOut env k ms).map UnitRun.trace).flatten.filter
      Call.isSendMessage).length = (ms.filter (fun m => m.IsValid)).length := by
  induction ms with
  | nil => intro k; rfl
  | cons m ms ih =>
    intro k
    simp only [fanOut, List.map_cons, List.flatten_cons, List.filter_append,
      List.length_append, ih, runUnit_sends]
    cases hv : m.IsValid <;> simp [hv, List.filter_cons]
    omega

theorem stopTicker_last (old : List (Nat × Bool)) (p : Nat) (b : Bool) :
    stopTicker old.length (old ++ [(p, b)]) = old ++ [(p, true)] := by
  induction old with
  | nil => rfl
  | cons t ts ih => simp [stopTicker, ih]

theorem closeChan_last (oldc : List Bool) (c : Bool) :
    closeChan oldc.length (oldc ++ [c]) = oldc ++ [true] := by
  induction oldc with
  | nil => rfl
  | cons t ts ih => simp [closeChan, ih]

theorem wellFormed_initSys (limit : Int) : (initSys limit).wellFormed := by
  constructor
  · intro h; simp [initSys, NewWorker] at h
  · intro _ t ht; simp [initSys, NewWorker] at ht

theorem Start_running (s : Sys) : (Start s).w.running = true := by
  unfold Start
  by_cases h : s.w.running = true <;> simp [h]

theorem Start_of_running (s : Sys) (h : s.w.running = true) : Start s = s := by
  simp [Start, h]

theorem Stop_of_not_running (s : Sys) (h : s.w.running = false) : Stop s = some s := by
  simp [Stop, h]

theorem wellFormed_Start (s : Sys) (hs : s.wellFormed) : (Start s).wellFormed := by
  by_cases h : s.w.running = true
  · rw [Start_of_running s h]; exact hs
  · have hf : s.w.running = false := by simpa using h
    constructor
    · intro _
      refine ⟨s.rt.tickers, 2 * Minute, s.rt.chans, ?_, hs.2 hf, ?_, ?_, ?_⟩ <;>
        simp [Start, hf]
    · intro h2
      rw [Start_running] at h2
      exact absurd h2 (by simp)

theorem wellFormed_Stop (s : Sys) (hs : s.wellFormed) :
    ∃ t, Stop s = some t ∧ t.wellFormed ∧ t.w.running = false := by
  by_cases h : s.w.running = true
  · obtain ⟨old, p, oldc, ht, hold, htk, hc, hd⟩ := hs.1 h
    refine ⟨{ w := { s.w with running := false },
              rt := { chans := oldc ++ [true], tickers := old ++ [(p, true)] },
              loops := s.loops }, ?_, ?_, rfl⟩
    · simp [Stop, h, htk, hc, hd, ht, stopTicker_last, closeChan_last]
    · constructor
      · intro h2; simp at h2
      · intro _ t ht2
        simp only [List.mem_append, List.mem_singleton] at ht2
        rcases ht2 with ht2 | rfl
        · exact hold t ht2
        · rfl
  · have hf : s.w.running = false := by simpa using h
    exact ⟨s, Stop_of_not_running s hf, hs, hf⟩

theorem runOps_wellFormed (ops : List Op) :
    ∀ s : Sys, s.wellFormed →
      ∃ t, runOps ops s = some t ∧ t.wellFormed ∧
        t.w.running = lastIsStart s.w.running ops := by
  induction ops with
  | nil => intro s hs; exact ⟨s, rfl, hs, rfl⟩
  | cons o os ih =>
    intro s hs
    cases o with
    | Start =>
      obtain ⟨t, ht, hwf, hr⟩ := ih (Start s) (wellFormed_Start s hs)
      refine ⟨t, ?_, hwf, ?_⟩
      · simpa [runOps, applyOp] using ht
      · rw [hr, Start_running]; rfl
    | Stop =>
      obtain ⟨u, hu, hwu, hru⟩ := wellFormed_Stop s hs
      obtain ⟨t, ht, hwf, hr⟩ := ih u hwu
      refine ⟨t, ?_, hwf, ?_⟩
      · simpa [runOps, applyOp, hu] using ht
      · rw [hr, hru]; rfl

theorem lastIsStart_eq (ops : List Op) :
    ∀ b : Bool, lastIsStart b ops = true ↔
      (ops.getLast? = some Op.Start ∨ (ops = [] ∧ b = true)) := by
  induction ops with
  | nil => intro b; simp [lastIsStart]
  | cons o os ih =>
    intro b
    cases o <;> cases os with
    | nil => simp [lastIsStart]
    | cons o2 os2 =>
      simp only [lastIsStart, List.getLast?_cons_cons] at ih ⊢
      first
      | simpa using ih true
      | simpa using ih false

theorem activeTickers_wellFormed (s : Sys) (hs : s.wellFormed) :
    activeTickers s = if s.w.running then 1 else 0 := by
  unfold activeTickers
  by_cases h : s.w.running = true
  · obtain ⟨old, p, oldc, ht, hold, _, _, _⟩ := hs.1 h
    have hnil : old.filter (fun t => !t.2) = [] := by
      rw [List.filter_eq_nil_iff]
      intro t htm
      simp [hold t htm]
    simp [h, ht, List.filter_append, hnil]
  · have hf : s.w.running = false := by simpa using h
    have hnil : s.rt.tickers.filter (fun t => !t.2) = [] := by
      rw [List.filter_eq_nil_iff]
      intro t htm
      simp [hs.2 hf t htm]
    simp [hf, hnil]

theorem doneOpen_wellFormed (s : Sys) (hs : s.wellFormed) (h : s.w.running = true) :
    s.rt.chans[s.w.done]? = some false := by
  obtain ⟨old, p, oldc, _, _, _, hc, hd⟩ := hs.1 h
  rw [hc, hd]
  simp

theorem Stop_loops (s t : Sys) (h : Stop s = some t) : t.loops = s.loops := by
  unfold Stop at h
  by_cases hr : s.w.running = true
  · simp only [hr, Bool.not_true, Bool.false_eq_true, if_false] at h
    cases htk : s.w.ticker with
    | none => simp [htk] at h
    | some tk =>
      simp only [htk] at h
      cases hc : s.rt.chans[s.w.done]? with
      | none => simp [hc] at h
      | some b =>
        cases b with
        | true => simp [hc] at h
        | false =>
          simp only [hc, Option.some.injEq] at h
          rw [← h]
  · have hf : s.w.running = false := by simpa using hr
    simp only [hf, Bool.not_false, if_true, Option.some.injEq] at h
    rw [h]

theorem setLoop_ok (s : Sys) (i : Nat) (l : Loop) (hs : ∀ x ∈ s.loops, x.ok = true)
    (hl : l.ok = true) : ∀ x ∈ (setLoop s i l).loops, x.ok = true := by
  intro x hx
  rcases List.mem_or_eq_of_mem_set hx with h | h
  · exact hs x h
  · rw [h]; exact hl

theorem step_loops_ok (a : Action) (s t : Sys) (hs : ∀ x ∈ s.loops, x.ok = true)
    (h : step a s = some t) : ∀ x ∈ t.loops, x.ok = true := by
  cases a with
  | call o =>
    cases o with
    | Start =>
      simp only [step, applyOp, Option.some.injEq] at h
      rw [← h]
      unfold Start
      by_cases hr : s.w.running = true
      · simpa [hr] using hs
      · intro x hx
        have hx2 : x ∈ s.loops ++ [({ pc := LoopPc.first, cycles := 0 } : Loop)] := by
          simpa [hr] using hx
        rw [List.mem_append, List.mem_singleton] at hx2
        rcases hx2 with hx | hx
        · exact hs x hx
        · rw [hx]; rfl
    | Stop =>
      simp only [step, applyOp] at h
      rw [Stop_loops s t h]
      exact hs
  | loopBegin i =>
    simp only [step] at h
    split at h
    · simp only [Option.some.injEq] at h
      rw [← h]
      exact setLoop_ok s i _ hs (by simp [Loop.ok])
    · exact absurd h (by simp)
  | loopFinish i =>
    simp only [step] at h
    split at h
    · rename_i n tk hl _
      simp only [Option.some.injEq] at h
      rw [← h]
      have hmem : ({ pc := LoopPc.inCycle, cycles := n } : Loop) ∈ s.loops :=
        List.getElem?_mem hl
      have hok := hs _ hmem
      exact setLoop_ok s i _ hs (by simpa [Loop.ok] using hok)
    · exact absurd h (by simp)
  | loopTick i =>
    simp only [step] at h
    split at h
    · split at h
      · simp only [Option.some.injEq] at h
        rw [← h]
        exact setLoop_ok s i _ hs (by simp [Loop.ok])
      · exact absurd h (by simp)
    · exact absurd h (by simp)
  | loopExit i =>
    simp only [step] at h
    split at h
    · rename_i d tk n hl
      split at h
      · simp only [Option.some.injEq] at h
        rw [← h]
        have hmem : ({ pc := LoopPc.waiting d tk, cycles := n } : Loop) ∈ s.loops :=
          List.getElem?_mem hl
        have hok := hs _ hmem
        exact setLoop_ok s i _ hs (by simpa [Loop.ok] using hok)
      · exact absurd h (by simp)
    · exact absurd h (by simp)

theorem run_loops_ok (as : List Action) :
    ∀ s t : Sys, (∀ x ∈ s.loops, x.ok = true) → run as s = some t →
      ∀ x ∈ t.loops, x.ok = true := by
  induction as with
  | nil =>
    intro s t hs h
    simp only [run, Option.some.injEq] at h
    rw [← h]; exact hs
  | cons a as ih =>
    intro s t hs h
    simp only [run] at h
    cases hstep : step a s with
    | none => simp [hstep] at h
    | some u =>
      simp only [hstep] at h
      exact ih u t (step_loops_ok a s u hs hstep) h

theorem Stop_not_running (s t : Sys) (h : Stop s = some t) : t.w.running = false := by
  unfold Stop at h
  by_cases hr : s.w.running = true
  · simp only [hr, Bool.not_true, Bool.false_eq_true, if_false] at h
    cases htk : s.w.ticker with
    | none => simp [htk] at h
    | some tk =>
      simp only [htk] at h
      cases hc : s.rt.chans[s.w.done]? with
      | none => simp [hc] at h
      | some b =>
        cases b with
        | true => simp [hc] at h
        | false =>
          simp only [hc, Option.some.injEq] at h
          rw [← h]
  · have hf : s.w.running = false := by simpa using hr
    simp only [hf, Bool.not_false, if_true, Option.some.injEq] at h
    rw [← h]; exact hf

theorem retryFailed_mem (env : UnitEnv) (id : ObjectID) :
    ∀ (n : Nat) (err : Option Error) (s : UnitState),
      ∀ c ∈ (retryFailed env id n err s).2.trace,
        c ∈ s.trace ∨ c = Call.Sleep 100 ∨ c = Call.UpdateMessageStatus id STATUS_FAILED none := by
  intro n
  induction n with
  | zero => intro err s c hc; exact Or.inl hc
  | succ k ih =>
    intro err s c hc
    simp only [retryFailed] at hc
    revert hc
    cases h : (UpdateMessageStatus env id STATUS_FAILED none s).1 with
    | none =>
      intro hc
      simp only [UpdateMessageStatus, List.mem_append, List.mem_singleton] at hc
      rcases hc with hc | hc
      · exact Or.inl hc
      · exact Or.inr (Or.inr hc)
    | some e =>
      intro hc
      simp only [] at hc
      rcases ih _ _ c hc with hc | hc | hc
      · simp only [UpdateMessageStatus, timeSleep, List.mem_append, List.mem_singleton] at hc
        rcases hc with (hc | hc) | hc
        · exact Or.inl hc
        · exact Or.inr (Or.inr hc)
        · exact Or.inr (Or.inl hc)
      · exact Or.inr (Or.inl hc)
      · exact Or.inr (Or.inr hc)

theorem retrySent_mem (env : UnitEnv) (id : ObjectID) :
    ∀ (n : Nat) (err : Option Error) (s : UnitState),
      ∀ c ∈ (retrySent env id n err s).2.trace,
        c ∈ s.trace ∨ c = Call.Sleep 100 ∨
          ∃ t, c = Call.UpdateMessageStatus id STATUS_SENT (some t) := by
  intro n
  induction n with
  | zero => intro err s c hc; exact Or.inl hc
  | succ k ih =>
    intro err s c hc
    simp only [retrySent] at hc
    revert hc
    cases h : (UpdateMessageStatus env id STATUS_SENT (some (timeNow env s).1)
        (timeNow env s).2).1 with
    | none =>
      intro hc
      simp only [UpdateMessageStatus, timeNow, List.mem_append, List.mem_singleton] at hc
      rcases hc with hc | hc
      · exact Or.inl hc
      · exact Or.inr (Or.inr ⟨_, hc⟩)
    | some e =>
      intro hc
      simp only [] at hc
      rcases ih _ _ c hc with hc | hc | hc
      · simp only [UpdateMessageStatus, timeNow, timeSleep, List.mem_append,
          List.mem_singleton] at hc
        rcases hc with (hc | hc) | hc
        · exact Or.inl hc
        · exact Or.inr (Or.inr ⟨_, hc⟩)
        · exact Or.inr (Or.inl hc)
      · exact Or.inr (Or.inl hc)
      · exact Or.inr (Or.inr hc)

/-- Every call of a unit is the delivery call, a pause, a cache write, or a
status write for the unit's own message; the status written is "invalid"
for a message that is not valid, "failed" after a delivery error and "sent"
with a timestamp after a delivery without error. -/
theorem runUnit_calls (env : UnitEnv) (m : MessageTransaction) :
    ∀ c ∈ (runUnit env m).trace,
      c = Call.SendMessage m.Recipient m.Content ∨ c = Call.Sleep 100 ∨
      (∃ p, c = Call.CacheMessageID p) ∨
      (c = Call.UpdateMessageStatus m.ID STATUS_INVALID none ∧ m.IsValid = false) ∨
      (c = Call.UpdateMessageStatus m.ID STATUS_FAILED none ∧ m.IsValid = true ∧
        env.sendResult.2 ≠ none) ∨
      (∃ t, c = Call.UpdateMessageStatus m.ID STATUS_SENT (some t) ∧ m.IsValid = true ∧
        env.sendResult.2 = none) := by
  intro c hc
  cases hv : m.IsValid with
  | false =>
    rw [runUnit_invalid env m hv] at hc
    simp only [List.mem_singleton] at hc
    exact Or.inr (Or.inr (Or.inr (Or.inl ⟨hc, rfl⟩)))
  | true =>
    simp only [runUnit, processMessage, hv, Bool.not_true, Bool.false_eq_true, if_false]
      at hc
    have hsendtr : ∀ x ∈ (SendMessage env m.Recipient m.Content UnitState.init).2.trace,
        x = Call.SendMessage m.Recipient m.Content := by
      intro x hx
      simpa [SendMessage, UnitState.init] using hx
    have hs2 : (SendMessage env m.Recipient m.Content UnitState.init).1.2 = env.sendResult.2 :=
      rfl
    cases he : env.sendResult.2 with
    | some e =>
      simp only [hs2, he] at hc
      rcases retryFailed_mem env m.ID 3 _ _ c hc with h | h | h
      · exact Or.inl (hsendtr c h)
      · exact Or.inr (Or.inl h)
      · exact Or.inr (Or.inr (Or.inr (Or.inr (Or.inl ⟨h, rfl, by simp⟩))))
    | none =>
      simp only [hs2, he] at hc
      have hsent : ∀ x ∈ (retrySent env m.ID 3 none
          (SendMessage env m.Recipient m.Content UnitState.init).2).2.trace,
          x = Call.SendMessage m.Recipient m.Content ∨ x = Call.Sleep 100 ∨
          ∃ t, x = Call.UpdateMessageStatus m.ID STATUS_SENT (some t) := by
        intro x hx
        rcases retrySent_mem env m.ID 3 _ _ x hx with h | h | h
        · exact Or.inl (hsendtr x h)
        · exact Or.inr (Or.inl h)
        · exact Or.inr (Or.inr h)
      have fin : ∀ x, (x = Call.SendMessage m.Recipient m.Content ∨ x = Call.Sleep 100 ∨
          ∃ t, x = Call.UpdateMessageStatus m.ID STATUS_SENT (some t)) →
          x = Call.SendMessage m.Recipient m.Content ∨ x = Call.Sleep 100 ∨
          (∃ p, x = Call.CacheMessageID p) ∨
          (x = Call.UpdateMessageStatus m.ID STATUS_INVALID none ∧ true = false) ∨
          (x = Call.UpdateMessageStatus m.ID STATUS_FAILED none ∧ true = true ∧
            (none : Option Error) ≠ none) ∨
          (∃ t, x = Call.UpdateMessageStatus m.ID STATUS_SENT (some t) ∧ true = true ∧
            (none : Option Error) = none) := by
        intro x hx
        rcases hx with h | h | ⟨t, h⟩
        · exact Or.inl h
        · exact Or.inr (Or.inl h)
        · exact Or.inr (Or.inr (Or.inr (Or.inr (Or.inr ⟨t, h, rfl, rfl⟩))))
      cases hr : (retrySent env m.ID 3 none
          (SendMessage env m.Recipient m.Content UnitState.init).2).1 with
      | some e =>
        simp only [hr] at hc
        exact fin c (hsent c hc)
      | none =>
        simp only [hr] at hc
        cases hres : (SendMessage env m.Recipient m.Content UnitState.init).1.1 with
        | none =>
          simp only [hres] at hc
          exact fin c (hsent c hc)
        | some res =>
          simp only [hres, CacheMessageID, List.mem_append, List.mem_singleton] at hc
          rcases hc with hc | hc
          · exact fin c (hsent c hc)
          · exact Or.inr (Or.inr (Or.inl ⟨_, hc⟩))

theorem fanOut_msgs (env : Nat → UnitEnv) (ms : List MessageTransaction) :
    ∀ k : Nat, (fanOut env k ms).map UnitRun.msg = ms := by
  induction ms with
  | nil => intro k; rfl
  | cons m ms ih => intro k; simp [fanOut, ih, runUnit]

theorem fanOut_unit (env : Nat → UnitEnv) (ms : List MessageTransaction) :
    ∀ k : Nat, ∀ u ∈ fanOut env k ms, ∃ i, u = runUnit (env i) u.msg := by
  induction ms with
  | nil => intro k u hu; simp [fanOut] at hu
  | cons m ms ih =>
    intro k u hu
    simp only [fanOut, List.mem_cons] at hu
    rcases hu with rfl | hu
    · exact ⟨k, rfl⟩
    · exact ih (k + 1) u hu

theorem sentAtOk_iff (d : MessageTransaction) :
    sentAtOk d = true ↔ (d.SentAt.isSome = true ↔ d.Status = STATUS_SENT) := by
  unfold sentAtOk
  cases h1 : d.SentAt.isSome <;> by_cases h2 : d.Status = STATUS_SENT <;> simp [h1, h2]

theorem getMessages_mem (docs : Collection) (f : MessageFilter) (o : MessageOptions) :
    ∀ m ∈ (mongostore.GetMessages docs none f o).1, m ∈ docs ∧ f.ToFilter m = true := by
  intro m hm
  have hsorted : ∀ x ∈ (docs.filter f.ToFilter).insertionSort
      (fun a b => a.CreatedAt ≤ b.CreatedAt), x ∈ docs ∧ f.ToFilter x = true := by
    intro x hx
    rw [(List.perm_insertionSort _ _).mem_iff] at hx
    simpa [List.mem_filter] using hx
  simp only [mongostore.GetMessages] at hm
  cases ho : o.ToOptions with
  | none => exact hsorted m (by simpa [ho] using hm)
  | some n =>
    simp only [ho] at hm
    exact hsorted m (List.mem_of_mem_take hm)

theorem getMessages_nodup (docs : Collection) (f : MessageFilter) (o : MessageOptions)
    (h : docs.Nodup) : (mongostore.GetMessages docs none f o).1.Nodup := by
  have hsorted : ((docs.filter f.ToFilter).insertionSort
      (fun a b => a.CreatedAt ≤ b.CreatedAt)).Nodup :=
    (List.perm_insertionSort _ _).nodup_iff.mpr (h.filter _)
  simp only [mongostore.GetMessages]
  cases ho : o.ToOptions with
  | none => simpa [ho] using hsorted
  | some n =>
    simp only [ho]
    exact hsorted.sublist (List.take_sublist _ _)

theorem updateOne_keeps (N : ObjectID → Prop) (id : ObjectID) (st : String)
    (t : Option Time)
    (hc : (N id ∧ t = none ∧ st ≠ STATUS_SENT) ∨ (¬ N id ∧ st = STATUS_SENT ∧ t.isSome = true)) :
    ∀ docs : Collection,
      (∀ d ∈ docs, sentAtOk d = true ∧ (N d.ID → d.SentAt = none)) →
      ∀ d ∈ mongostore.updateOne id st t docs,
        sentAtOk d = true ∧ (N d.ID → d.SentAt = none) := by
  intro docs
  induction docs with
  | nil => intro _ d hd; simp [mongostore.updateOne] at hd
  | cons x xs ih =>
    intro hJ d hd
    have hx := hJ x (List.mem_cons_self _ _)
    have hxs : ∀ d ∈ xs, sentAtOk d = true ∧ (N d.ID → d.SentAt = none) :=
      fun d hd => hJ d (List.mem_cons_of_mem _ hd)
    unfold mongostore.updateOne at hd
    by_cases hid : x.ID = id
    · simp only [hid, if_true, List.mem_cons] at hd
      rcases hd with rfl | hd
      · rcases hc with ⟨hN, ht, hst⟩ | ⟨hN, hst, ht⟩
        · have hnone : x.SentAt = none := hx.2 (hid ▸ hN)
          subst ht
          refine ⟨?_, fun _ => hnone⟩
          rw [sentAtOk_iff]
          simp [hnone, hst]
        · obtain ⟨tv, rfl⟩ := Option.isSome_iff_exists.mp ht
          refine ⟨?_, fun h => absurd (hid ▸ h) hN⟩
          rw [sentAtOk_iff]
          simp [hst]
      · exact hxs d hd
    · simp only [hid, if_false, List.mem_cons] at hd
      rcases hd with rfl | hd
      · exact hx
      · exact ih hxs d hd

theorem applyCalls_keeps (N : ObjectID → Prop) (cs : List Call)
    (hcs : ∀ c ∈ cs, ∀ id st t, c = Call.UpdateMessageStatus id st t →
      (N id ∧ t = none ∧ st ≠ STATUS_SENT) ∨ (¬ N id ∧ st = STATUS_SENT ∧ t.isSome = true)) :
    ∀ docs : Collection,
      (∀ d ∈ docs, sentAtOk d = true ∧ (N d.ID → d.SentAt = none)) →
      ∀ d ∈ applyCalls docs cs, sentAtOk d = true ∧ (N d.ID → d.SentAt = none) := by
  induction cs with
  | nil => intro docs hJ; simpa [applyCalls] using hJ
  | cons c cs ih =>
    intro docs hJ
    have hrest := ih (fun c2 hc2 => hcs c2 (List.mem_cons_of_mem _ hc2))
    have hstep : ∀ d ∈ applyCall docs c, sentAtOk d = true ∧ (N d.ID → d.SentAt = none) := by
      cases c with
      | UpdateMessageStatus id st t =>
        simp only [applyCall, mongostore.UpdateMessageStatus]
        exact updateOne_keeps N id st t (hcs _ (List.mem_cons_self _ _) id st t rfl) docs hJ
      | GetMessages f o => simpa [applyCall] using hJ
      | SendMessage r c => simpa [applyCall] using hJ
      | CacheMessageID p => simpa [applyCall] using hJ
      | Sleep ms => simpa [applyCall] using hJ
    simpa [applyCalls] using hrest (applyCall docs c) hstep

/-- A unit writes either only statuses "invalid" or "failed" without a
timestamp, or only "sent" with a timestamp; always for its own message. -/
theorem runUnit_kind (env : UnitEnv) (m : MessageTransaction) :
    (∀ id st t, Call.UpdateMessageStatus id st t ∈ (runUnit env m).trace →
      id = m.ID ∧ t = none ∧ (st = STATUS_INVALID ∨ st = STATUS_FAILED)) ∨
    (∀ id st t, Call.UpdateMessageStatus id st t ∈ (runUnit env m).trace →
      id = m.ID ∧ st = STATUS_SENT ∧ t.isSome = true) := by
  by_cases hk : m.IsValid = true ∧ env.sendResult.2 = none
  · right
    intro id st t hc
    rcases runUnit_calls env m _ hc with h | h | ⟨p, h⟩ | ⟨h, hv⟩ | ⟨h, _, hs⟩ | ⟨tv, h, _, _⟩
    · cases h
    · cases h
    · cases h
    · rw [hk.1] at hv; cases hv
    · exact absurd hk.2 hs
    · cases h; exact ⟨rfl, rfl, rfl⟩
  · left
    intro id st t hc
    rcases runUnit_calls env m _ hc with h | h | ⟨p, h⟩ | ⟨h, _⟩ | ⟨h, _, _⟩ | ⟨tv, h, hv, hs⟩
    · cases h
    · cases h
    · cases h
    · cases h; exact ⟨rfl, rfl, Or.inl rfl⟩
    · cases h; exact ⟨rfl, rfl, Or.inr rfl⟩
    · exact absurd ⟨hv, hs⟩ hk

theorem process_units_spec (w : Worker) (env : CycleEnv) :
    ∀ u ∈ (process w env).units,
      u.msg ∈ env.getResult.1 ∧ ∃ i, u = runUnit (env.unitEnv i) u.msg := by
  intro u hu
  cases h : env.getResult.2 with
  | some e => rw [process_units_err w env e h] at hu; simp at hu
  | none =>
    rw [process_units_ok w env h] at hu
    refine ⟨?_, fanOut_unit _ _ 0 u hu⟩
    have hmem : u.msg ∈ (fanOut env.unitEnv 0 env.getResult.1).map UnitRun.msg :=
      List.mem_map_of_mem _ hu
    rwa [fanOut_msgs] at hmem

theorem process_units_msgs (w : Worker) (env : CycleEnv) :
    (process w env).units.map UnitRun.msg = env.getResult.1 ∨ (process w env).units = [] := by
  cases h : env.getResult.2 with
  | some e => exact Or.inr (process_units_err w env e h)
  | none => left; rw [process_units_ok w env h, fanOut_msgs]

theorem allCalls_update (w : Worker) (env : CycleEnv) (id : ObjectID) (st : String)
    (t : Option Time) (h : Call.UpdateMessageStatus id st t ∈ (process w env).allCalls) :
    ∃ u ∈ (process w env).units, Call.UpdateMessageStatus id st t ∈ u.trace := by
  simp only [CycleRun.allCalls, process_fetch, List.mem_append, List.mem_singleton,
    List.mem_flatten, List.mem_map] at h
  rcases h with h | ⟨tr, ⟨u, hu, rfl⟩, hc⟩
  · cases h
  · exact ⟨u, hu, hc⟩

theorem sendMessage_marshalErr {β : Type} (c : messageClient) (env : ClientEnv β)
    (recipient content : String) (e : Error)
    (hm : env.marshal { To := recipient, Content := content } = Except.error e) :
    c.SendMessage env recipient content =
      { res := none, err := some ("failed to marshal request: " ++ e), request := none } := by
  simp [messageClient.SendMessage, hm]

theorem sendMessage_requestErr {β : Type} (c : messageClient) (env : ClientEnv β)
    (recipient content : String) (jsonData : β) (e : Error)
    (hm : env.marshal { To := recipient, Content := content } = Except.ok jsonData)
    (hn : env.newRequestErr "POST" c.url = some e) :
    c.SendMessage env recipient content =
      { res := none,
        err := some ("getting support url config failed while creating http request, " ++ e),
        request := none } := by
  simp [messageClient.SendMessage, hm, MethodPost, hn]

theorem sendMessage_transportErr {β : Type} (c : messageClient) (env : ClientEnv β)
    (recipient content : String) (jsonData : β) (e : Error)
    (hm : env.marshal { To := recipient, Content := content } = Except.ok jsonData)
    (hn : env.newRequestErr "POST" c.url = none)
    (hr : env.roundTrip
        { Method := "POST", URL := c.url,
          Header := [("x-ins-auth-key", c.authKey), ("Content-Type", "application/json")],
          Body := jsonData } = Except.error e) :
    c.SendMessage env recipient content =
      { res := none,
        err := some ("getting support url config failed while doing http request, " ++ e),
        request := some
          { Method := "POST", URL := c.url,
            Header := [("x-ins-auth-key", c.authKey), ("Content-Type", "application/json")],
            Body := jsonData } } := by
  simp [messageClient.SendMessage, hm, MethodPost, hn, headerSet, hr]

theorem sendMessage_response {β : Type} (c : messageClient) (env : ClientEnv β)
    (recipient content : String) (jsonData : β) (resp : HttpResponse β)
    (hm : env.marshal { To := recipient, Content := content } = Except.ok jsonData)
    (hn : env.newRequestErr "POST" c.url = none)
    (hr : env.roundTrip
        { Method := "POST", URL := c.url,
          Header := [("x-ins-auth-key", c.authKey), ("Content-Type", "application/json")],
          Body := jsonData } = Except.ok resp) :
    c.SendMessage env recipient content =
      { res :=
          if resp.StatusCode ≠ 200 ∧ resp.StatusCode ≠ 202 then none
          else match env.decode resp.Body with
            | Except.error _ => none
            | Except.ok hookRes => some hookRes,
        err :=
          if resp.StatusCode ≠ 200 ∧ resp.StatusCode ≠ 202 then
            some ("getting support url config failed while doing http request, " ++ resp.Status)
          else match env.decode resp.Body with
            | Except.error e =>
              some ("getting support url config failed while decoding support config, " ++ e)
            | Except.ok _ => none,
        request := some
          { Method := "POST", URL := c.url,
            Header := [("x-ins-auth-key", c.authKey), ("Content-Type", "application/json")],
            Body := jsonData } } := by
  by_cases hs : resp.StatusCode ≠ 200 ∧ resp.StatusCode ≠ 202
  · simp [messageClient.SendMessage, hm, MethodPost, hn, headerSet, hr, StatusOK,
      StatusAccepted, hs]
  · cases hd : env.decode resp.Body <;>
      simp [messageClient.SendMessage, hm, MethodPost, hn, headerSet, hr, StatusOK,
        StatusAccepted, hs, hd]

theorem stopTicker_period (p : Nat) :
    ∀ (k : Nat) (l : List (Nat × Bool)), (∀ t ∈ l, t.1 = p) → ∀ t ∈ stopTicker k l, t.1 = p := by
  intro k l
  induction l generalizing k with
  | nil => intro _ t ht; simp [stopTicker] at ht
  | cons x xs ih =>
    intro h t ht
    cases k with
    | zero =>
      simp only [stopTicker, List.mem_cons] at ht
      rcases ht with rfl | ht
      · exact h x (List.mem_cons_self _ _)
      · exact h t (List.mem_cons_of_mem _ ht)
    | succ j =>
      simp only [stopTicker, List.mem_cons] at ht
      rcases ht with rfl | ht
      · exact h t (List.mem_cons_self _ _)
      · exact ih j (fun y hy => h y (List.mem_cons_of_mem _ hy)) t ht

theorem Start_period (s : Sys) (h : ∀ t ∈ s.rt.tickers, t.1 = 2 * Minute) :
    ∀ t ∈ (Start s).rt.tickers, t.1 = 2 * Minute := by
  unfold Start
  by_cases hr : s.w.running = true
  · simpa [hr] using h
  · intro t ht
    have ht2 : t ∈ s.rt.tickers ++ [(2 * Minute, false)] := by simpa [hr] using ht
    rw [List.mem_append, List.mem_singleton] at ht2
    rcases ht2 with h2 | h2
    · exact h t h2
    · rw [h2]

theorem Stop_period (s u : Sys) (hs : Stop s = some u)
    (h : ∀ t ∈ s.rt.tickers, t.1 = 2 * Minute) :
    ∀ t ∈ u.rt.tickers, t.1 = 2 * Minute := by
  unfold Stop at hs
  by_cases hr : s.w.running = true
  · simp only [hr, Bool.not_true, Bool.false_eq_true, if_false] at hs
    cases htk : s.w.ticker with
    | none => simp [htk] at hs
    | some tk =>
      simp only [htk] at hs
      cases hc : s.rt.chans[s.w.done]? with
      | none => simp [hc] at hs
      | some b =>
        cases b with
        | true => simp [hc] at hs
        | false =>
          simp only [hc, Option.some.injEq] at hs
          rw [← hs]
          exact stopTicker_period _ tk _ h
  · have hf : s.w.running = false := by simpa using hr
    simp only [hf, Bool.not_false, if_true, Option.some.injEq] at hs
    rw [← hs]; exact h

theorem runOps_period (ops : List Op) :
    ∀ s u : Sys, (∀ t ∈ s.rt.tickers, t.1 = 2 * Minute) → runOps ops s = some u →
      ∀ t ∈ u.rt.tickers, t.1 = 2 * Minute := by
  induction ops with
  | nil =>
    intro s u h hu
    simp only [runOps, Option.some.injEq] at hu
    rw [← hu]; exact h
  | cons o os ih =>
    intro s u h hu
    simp only [runOps] at hu
    cases o with
    | Start =>
      simp only [applyOp] at hu
      exact ih (Start s) u (Start_period s h) hu
    | Stop =>
      simp only [applyOp] at hu
      cases hst : Stop s with
      | none => simp [hst] at hu
      | some v =>
        simp only [hst] at hu
        exact ih v u (Stop_period s v hst h) hu

/-- A unit panics exactly when its message is valid, `SendMessage` answers
with neither a response nor an error, and one of the three "sent" writes
succeeds: the read of `res.MessageID` then meets a nil `res`. -/
theorem runUnit_panicked_iff (env : UnitEnv) (m : MessageTransaction) :
    (runUnit env m).completion = Completion.panicked ↔
      (m.IsValid = true ∧ env.sendResult = (none, none) ∧
        (env.updateResult 0 = none ∨ env.updateResult 1 = none ∨ env.updateResult 2 = none)) := by
  cases hv : m.IsValid with
  | false => simp [runUnit_invalid env m hv]
  | true =>
    rcases hsr : env.sendResult with ⟨res, err⟩
    cases err with
    | some e =>
      have hs : env.sendResult.2 = some e := by rw [hsr]
      simp [runUnit_sendErr env m e hv hs]
    | none =>
      cases res with
      | some r => simp [runUnit_sendOk env m r hv hsr]
      | none =>
        cases h0 : env.updateResult 0 <;> cases h1 : env.updateResult 1 <;>
          cases h2 : env.updateResult 2 <;>
          simp [runUnit, processMessage, hv, hsr, SendMessage, retrySent, UpdateMessageStatus,
            timeNow, timeSleep, UnitState.init, h0, h1, h2]

/-- A unit calls `CacheMessageID` only with the `MessageID` of a response
that `SendMessage` returned together with a nil error. -/
theorem runUnit_cache (env : UnitEnv) (m : MessageTransaction) (p : String)
    (h : Call.CacheMessageID p ∈ (runUnit env m).trace) :
    ∃ r, env.sendResult = (some r, none) ∧ p = r.MessageID := by
  have hU : ∀ id st t, Call.isCacheMessageID (Call.UpdateMessageStatus id st t) = false :=
    fun _ _ _ => rfl
  have hS : ∀ ms, Call.isCacheMessageID (Call.Sleep ms) = false := fun _ => rfl
  have hfil : Call.CacheMessageID p ∈ (runUnit env m).trace.filter Call.isCacheMessageID :=
    List.mem_filter.mpr ⟨h, rfl⟩
  cases hv : m.IsValid with
  | false =>
    rw [runUnit_invalid env m hv] at h
    simp at h
  | true =>
    rcases hsr : env.sendResult with ⟨res, err⟩
    cases err with
    | some e =>
      have hs : env.sendResult.2 = some e := by rw [hsr]
      rw [runUnit_sendErr env m e hv hs] at h
      by_cases h0 : env.updateResult 0 = none
      · simp [h0] at h
      · by_cases h1 : env.updateResult 1 = none
        · simp [h0, h1] at h
        · by_cases h2 : env.updateResult 2 = none <;> simp [h0, h1, h2] at h
    | none =>
      cases res with
      | some r =>
        refine ⟨r, rfl, ?_⟩
        rw [runUnit_sendOk env m r hv hsr] at h
        by_cases h0 : env.updateResult 0 = none
        · simpa [h0] using h
        · by_cases h1 : env.updateResult 1 = none
          · simpa [h0, h1] using h
          · by_cases h2 : env.updateResult 2 = none
            · simpa [h0, h1, h2] using h
            · simp [h0, h1, h2] at h
      | none =>
        exfalso
        simp only [runUnit, processMessage, hv, Bool.not_true, Bool.false_eq_true, if_false]
          at hfil
        have hs2 : (SendMessage env m.Recipient m.Content UnitState.init).1 = (none, none) := by
          simp [SendMessage, hsr]
        simp only [hs2] at hfil
        revert hfil
        cases hr : (retrySent env m.ID 3 none
            (SendMessage env m.Recipient m.Content UnitState.init).2).1 with
        | some e =>
          intro hfil
          simp only [] at hfil
          rw [retrySent_filter Call.isCacheMessageID hU hS] at hfil
          simp [SendMessage, UnitState.init, Call.isCacheMessageID] at hfil
        | none =>
          intro hfil
          simp only [] at hfil
          rw [retrySent_filter Call.isCacheMessageID hU hS] at hfil
          simp [SendMessage, UnitState.init, Call.isCacheMessageID] at hfil

theorem toFilter_iff (f : MessageFilter) (d : MessageTransaction) :
    f.ToFilter d = true ↔ (f.Status = [] ∨ d.Status ∈ f.Status) := by
  unfold MessageFilter.ToFilter
  cases hs : f.Status with
  | nil => simp
  | cons x xs => simp

theorem toOptions_eq (o : MessageOptions) :
    o.ToOptions = if 0 < o.Limit then some o.Limit.toNat else none := by
  unfold MessageOptions.ToOptions
  by_cases h : 0 < o.Limit <;> simp [h]

theorem sorted_byCreatedAt (l : List MessageTransaction) :
    (l.insertionSort (fun a b => a.CreatedAt ≤ b.CreatedAt)).Sorted
      (fun a b => a.CreatedAt ≤ b.CreatedAt) := by
  haveI : IsTotal MessageTransaction (fun a b => a.CreatedAt ≤ b.CreatedAt) :=
    ⟨fun a b => Nat.le_total a.CreatedAt b.CreatedAt⟩
  haveI : IsTrans MessageTransaction (fun a b => a.CreatedAt ≤ b.CreatedAt) :=
    ⟨fun _ _ _ h1 h2 => Nat.le_trans h1 h2⟩
  exact List.sorted_insertionSort _ l

theorem getMessages_eq (docs : Collection) (f : MessageFilter) (o : MessageOptions) :
    (mongostore.GetMessages docs none f o).1 =
      if 0 < o.Limit then
        ((docs.filter f.ToFilter).insertionSort
          (fun a b => a.CreatedAt ≤ b.CreatedAt)).take o.Limit.toNat
      else
        (docs.filter f.ToFilter).insertionSort (fun a b => a.CreatedAt ≤ b.CreatedAt) := by
  simp only [mongostore.GetMessages, toOptions_eq]
  by_cases h : 0 < o.Limit <;> simp [h]

theorem withLock_plain (held : Bool) (l : List Stmt)
    (h : ∀ s ∈ l, s ≠ Stmt.lock ∧ s ≠ Stmt.unlock) :
    withLock held l = l.map (fun s => (s, held)) := by
  induction l with
  | nil => rfl
  | cons s rest ih =>
    have hs := h s (List.mem_cons_self _ _)
    have hrest := ih (fun x hx => h x (List.mem_cons_of_mem _ hx))
    cases s with
    | lock => exact absurd rfl hs.1
    | unlock => exact absurd rfl hs.2
    | read f => simp [withLock, hrest]
    | write f => simp [withLock, hrest]
    | process => simp [withLock, hrest]
    | spawn => simp [withLock, hrest]

theorem loopBody_plain (n : Nat) : ∀ s ∈ loopBody n, s ≠ Stmt.lock ∧ s ≠ Stmt.unlock := by
  induction n with
  | zero =>
    intro s hs
    simp only [loopBody, List.mem_cons, List.mem_singleton, List.not_mem_nil, or_false] at hs
    rcases hs with rfl | rfl | rfl <;> exact ⟨by decide, by decide⟩
  | succ k ih =>
    intro s hs
    simp only [loopBody, List.mem_append, List.mem_cons, List.mem_singleton,
      List.not_mem_nil, or_false] at hs
    rcases hs with hs | rfl | rfl | rfl
    · exact ih s hs
    · exact ⟨by decide, by decide⟩
    · exact ⟨by decide, by decide⟩
    · exact ⟨by decide, by decide⟩

theorem loopBody_reads (n : Nat) :
    Stmt.read Field.done ∈ loopBody n ∧ Stmt.read Field.ticker ∈ loopBody n ∧
      Stmt.process ∈ loopBody n := by
  cases n with
  | zero => simp [loopBody]
  | succ k => simp [loopBody]

theorem len_replicate_char (c : Char) (n : Nat) :
    len (String.mk (List.replicate n c)) = n * c.utf8Size := by
  have go : ∀ k : Nat, String.utf8ByteSize.go (List.replicate k c) = k * c.utf8Size := by
    intro k
    induction k with
    | zero => simp [String.utf8ByteSize.go]
    | succ j ih =>
      show String.utf8ByteSize.go (List.replicate j c) + c.utf8Size = (j + 1) * c.utf8Size
      rw [ih, Nat.succ_mul]
  exact go n

theorem runUnit_pauses (env : UnitEnv) (m : MessageTransaction) (hv : m.IsValid = true) :
    (runUnit env m).trace.filter Call.isSleep =
      List.replicate
        (if env.updateResult 0 = none then 0 else if env.updateResult 1 = none then 1
          else if env.updateResult 2 = none then 2 else 3)
        (Call.Sleep 100) := by
  rcases hsr : env.sendResult with ⟨res, err⟩
  cases err <;> cases res <;> cases h0 : env.updateResult 0 <;>
    cases h1 : env.updateResult 1 <;> cases h2 : env.updateResult 2 <;>
    simp [runUnit, processMessage, hv, hsr, SendMessage, retrySent, retryFailed,
      UpdateMessageStatus, CacheMessageID, timeNow, timeSleep, UnitState.init, h0, h1, h2,
      Call.isSleep, List.replicate]

theorem runUnit_attempts (env : UnitEnv) (m : MessageTransaction) (hv : m.IsValid = true) :
    (statusWrites (runUnit env m).trace).length =
      (if env.updateResult 0 = none then 1 else if env.updateResult 1 = none then 2 else 3) := by
  cases hs : env.sendResult.2 with
  | some e => rw [runUnit_sendErr_writes env m e hv hs]; simp
  | none => rw [runUnit_sendOk_writes env m hv hs]; simp

/-! ## Validation -/

/-- C1: `IsValid` returns true exactly when the content has between 1 and
1000 bytes and the recipient is not empty; otherwise it returns false. -/
theorem isValid_iff (m : MessageTransaction) :
    (m.IsValid = true ↔
      (0 < len m.Content ∧ len m.Content ≤ 1000 ∧ len m.Recipient > 0)) ∧
    (¬ (0 < len m.Content ∧ len m.Content ≤ 1000 ∧ len m.Recipient > 0) →
      m.IsValid = false) := by
  have key : m.IsValid = true ↔
      (0 < len m.Content ∧ len m.Content ≤ 1000 ∧ len m.Recipient > 0) := by
    unfold MessageTransaction.IsValid MaxMessageLength
    by_cases h1 : len m.Content > 1000 <;> by_cases h2 : len m.Recipient = 0 <;>
      by_cases h3 : len m.Content = 0 <;> simp [h1, h2, h3]
    omega
  refine ⟨key, fun h => ?_⟩
  cases hv : m.IsValid
  · rfl
  · exact absurd (key.mp hv) h

/-! ## Invalid messages -/

/-- C2: in a cycle whose fetch succeeds, the unit of every message of the
batch that is not valid issues exactly one call,
`UpdateMessageStatus(m.ID, "invalid", nil)`, whatever that write returns:
the write is not retried, and the unit calls neither `SendMessage` nor
`CacheMessageID`. -/
theorem invalid_unit_single_write (w : Worker) (env : CycleEnv) (i : Nat)
    (m : MessageTransaction) (hget : env.getResult.2 = none)
    (hm : env.getResult.1[i]? = some m) (hinv : m.IsValid = false) :
    ∃ u, unitAt w env i = some u ∧ u.msg = m ∧ u.completion = Completion.returned ∧
      u.trace = [Call.UpdateMessageStatus m.ID "invalid" none] ∧
      (statusWrites u.trace).length = 1 ∧
      (∀ c ∈ u.trace, c.isSendMessage = false ∧ c.isCacheMessageID = false) := by
  refine ⟨runUnit (env.unitEnv i) m, unitAt_eq w env i m hget hm, ?_⟩
  rw [runUnit_invalid _ m hinv]
  simp [statusWrites, STATUS_INVALID, Call.isUpdateMessageStatus, Call.isSendMessage,
    Call.isCacheMessageID]

theorem invalid_unit_single_write_witness :
    (cycleMixed envSendFails).getResult.2 = none ∧
    (cycleMixed envSendFails).getResult.1[1]? = some msgNoRecipient ∧
    msgNoRecipient.IsValid = false ∧
    ∃ u, unitAt worker2 (cycleMixed envSendFails) 1 = some u ∧ u.msg = msgNoRecipient ∧
      u.completion = Completion.returned ∧
      u.trace = [Call.UpdateMessageStatus msgNoRecipient.ID "invalid" none] ∧
      (statusWrites u.trace).length = 1 ∧
      (∀ c ∈ u.trace, c.isSendMessage = false ∧ c.isCacheMessageID = false) :=
  ⟨rfl, rfl, by decide,
    invalid_unit_single_write worker2 (cycleMixed envSendFails) 1 msgNoRecipient rfl rfl
      (by decide)⟩

/-- C3 fails on the code: for the batch holding only the 1001-byte message
(recipient not empty), the calls of the cycle are the fetch and one
`UpdateMessageStatus` for that message with status "invalid"; no call of the
cycle is an `UpdateMessageStatus` with status "failed", which is what the
test of the repository for this batch expects.  `SendMessage` is not
called. -/
theorem oversize_not_failed :
    len msgLong.Content > 1000 ∧ len msgLong.Recipient > 0 ∧
    cycleLong.getResult = ([msgLong], none) ∧
    (process worker2 cycleLong).allCalls =
      [Call.GetMessages { Status := ["pending", "failed"] } { Limit := 2 },
       Call.UpdateMessageStatus msgLong.ID "invalid" none] ∧
    ¬ ∃ c ∈ (process worker2 cycleLong).allCalls,
        ∃ t, c = Call.UpdateMessageStatus msgLong.ID "failed" t := by
  have hlen : len msgLong.Content = 1001 := len_replicate_a 1001
  have hinv : msgLong.IsValid = false := isValid_false_of_long msgLong (by omega)
  have hu : (process worker2 cycleLong).units = [runUnit envAllOk msgLong] := by
    rw [process_units_ok worker2 cycleLong rfl]
    rfl
  have hall : (process worker2 cycleLong).allCalls =
      [Call.GetMessages { Status := ["pending", "failed"] } { Limit := 2 },
       Call.UpdateMessageStatus msgLong.ID "invalid" none] := by
    simp only [CycleRun.allCalls, process_fetch, hu, runUnit_invalid _ _ hinv]
    rfl
  refine ⟨by omega, by decide, rfl, hall, ?_⟩
  rintro ⟨c, hc, t, rfl⟩
  rw [hall] at hc
  simp at hc

/-! ## Valid messages: delivery and status write -/

/-- C4: in a cycle whose fetch succeeds, the unit of a valid message `m` for
which `SendMessage` succeeds with provider id `r.MessageID` and the first
`UpdateMessageStatus` call succeeds issues exactly three calls, in this
order: `SendMessage(m.Recipient, m.Content)`, then
`UpdateMessageStatus(m.ID, "sent", t)` with a timestamp `t` that is present
(the unit's first clock reading), then `CacheMessageID(r.MessageID)`. -/
theorem sent_unit_calls (w : Worker) (env : CycleEnv) (i : Nat) (m : MessageTransaction)
    (r : MessageResponse) (hget : env.getResult.2 = none)
    (hm : env.getResult.1[i]? = some m) (hv : m.IsValid = true)
    (hs : (env.unitEnv i).sendResult = (some r, none))
    (h0 : (env.unitEnv i).updateResult 0 = none) :
    ∃ u, unitAt w env i = some u ∧ u.msg = m ∧ u.completion = Completion.returned ∧
      u.trace =
        [Call.SendMessage m.Recipient m.Content,
         Call.UpdateMessageStatus m.ID "sent" (some ((env.unitEnv i).clock 0)),
         Call.CacheMessageID r.MessageID] := by
  refine ⟨runUnit (env.unitEnv i) m, unitAt_eq w env i m hget hm, ?_⟩
  rw [runUnit_sendOk _ m r hv hs]
  simp [h0, STATUS_SENT]

theorem sent_unit_calls_witness :
    (cycleMixed envAllOk).getResult.2 = none ∧
    (cycleMixed envAllOk).getResult.1[0]? = some msgHi ∧
    msgHi.IsValid = true ∧
    ((cycleMixed envAllOk).unitEnv 0).sendResult =
      (some { Message := "Accepted", MessageID := "msg-1" }, none) ∧
    ((cycleMixed envAllOk).unitEnv 0).updateResult 0 = none ∧
    ∃ u, unitAt worker2 (cycleMixed envAllOk) 0 = some u ∧ u.msg = msgHi ∧
      u.completion = Completion.returned ∧
      u.trace =
        [Call.SendMessage "+90555" "hi", Call.UpdateMessageStatus 8 "sent" (some 100),
         Call.CacheMessageID "msg-1"] :=
  ⟨rfl, rfl, by decide, rfl, rfl,
    sent_unit_calls worker2 (cycleMixed envAllOk) 0 msgHi
      { Message := "Accepted", MessageID := "msg-1" } rfl rfl (by decide) rfl rfl⟩

/-- C5: in a cycle whose fetch succeeds, the unit of a valid message `m` for
which `SendMessage` returns an error issues at least one and at most three
status writes, every one of them `UpdateMessageStatus(m.ID, "failed", nil)`
(none with status "sent" or "invalid"), and no `CacheMessageID` call. -/
theorem failed_delivery_writes (w : Worker) (env : CycleEnv) (i : Nat)
    (m : MessageTransaction) (e : Error) (hget : env.getResult.2 = none)
    (hm : env.getResult.1[i]? = some m) (hv : m.IsValid = true)
    (hs : (env.unitEnv i).sendResult.2 = some e) :
    ∃ u, unitAt w env i = some u ∧ u.msg = m ∧ u.completion = Completion.returned ∧
      (∀ c ∈ u.trace, c.isUpdateMessageStatus = true →
        c = Call.UpdateMessageStatus m.ID "failed" none) ∧
      1 ≤ (statusWrites u.trace).length ∧ (statusWrites u.trace).length ≤ 3 ∧
      (∀ c ∈ u.trace, c.isCacheMessageID = false) := by
  refine ⟨runUnit (env.unitEnv i) m, unitAt_eq w env i m hget hm, ?_⟩
  rw [runUnit_sendErr _ m e hv hs]
  refine ⟨rfl, rfl, ?_⟩
  by_cases h0 : (env.unitEnv i).updateResult 0 = none
  · simp [h0, statusWrites, STATUS_FAILED, Call.isUpdateMessageStatus, Call.isCacheMessageID]
  · by_cases h1 : (env.unitEnv i).updateResult 1 = none
    · simp [h0, h1, statusWrites, STATUS_FAILED, Call.isUpdateMessageStatus,
        Call.isCacheMessageID]
    · by_cases h2 : (env.unitEnv i).updateResult 2 = none <;>
        simp [h0, h1, h2, statusWrites, STATUS_FAILED, Call.isUpdateMessageStatus,
          Call.isCacheMessageID]

theorem failed_delivery_writes_witness :
    (cycleMixed envSendFails).getResult.2 = none ∧
    (cycleMixed envSendFails).getResult.1[0]? = some msgHi ∧
    msgHi.IsValid = true ∧
    ((cycleMixed envSendFails).unitEnv 0).sendResult.2 = some "send failed" ∧
    ∃ u, unitAt worker2 (cycleMixed envSendFails) 0 = some u ∧ u.msg = msgHi ∧
      u.completion = Completion.returned ∧
      (∀ c ∈ u.trace, c.isUpdateMessageStatus = true →
        c = Call.UpdateMessageStatus msgHi.ID "failed" none) ∧
      1 ≤ (statusWrites u.trace).length ∧ (statusWrites u.trace).length ≤ 3 ∧
      (∀ c ∈ u.trace, c.isCacheMessageID = false) :=
  ⟨rfl, rfl, by decide, rfl,
    failed_delivery_writes worker2 (cycleMixed envSendFails) 0 msgHi "send failed" rfl rfl
      (by decide) rfl⟩

/-! ## The retry policy of the status write -/

/-- C6: in a cycle whose fetch succeeds, for the unit of a valid message
and every sequence `upd` of outcomes of its `UpdateMessageStatus` calls: all
its status writes carry "failed" (after a delivery error) or all carry "sent"
(after a delivery); their number is `k` when attempt `k` (counted from 1,
`k ≤ 3`) is the first to succeed, and 3 when none of the first three
succeeds.  When the first two attempts fail and the third succeeds, 3 writes
are made and the unit goes on as after a success: after a delivery error it
returns with the third write as its last call, after a delivery it calls
`CacheMessageID` exactly once, as its last call. -/
theorem retry_attempt_count (w : Worker) (env : CycleEnv) (i : Nat)
    (m : MessageTransaction) (hget : env.getResult.2 = none)
    (hm : env.getResult.1[i]? = some m) (hv : m.IsValid = true) :
    ∃ u, unitAt w env i = some u ∧
      (∀ e, (env.unitEnv i).sendResult.2 = some e →
        ∀ c ∈ statusWrites u.trace, c = Call.UpdateMessageStatus m.ID "failed" none) ∧
      ((env.unitEnv i).sendResult.2 = none →
        ∀ c ∈ statusWrites u.trace, ∃ t, c = Call.UpdateMessageStatus m.ID "sent" (some t)) ∧
      (∀ k, 1 ≤ k → k ≤ 3 →
        (∀ j, j + 1 < k → (env.unitEnv i).updateResult j ≠ none) →
        (env.unitEnv i).updateResult (k - 1) = none →
        (statusWrites u.trace).length = k) ∧
      ((∀ j, j < 3 → (env.unitEnv i).updateResult j ≠ none) →
        (statusWrites u.trace).length = 3) ∧
      ((env.unitEnv i).updateResult 0 ≠ none → (env.unitEnv i).updateResult 1 ≠ none →
        (env.unitEnv i).updateResult 2 = none →
        (statusWrites u.trace).length = 3 ∧
        (∀ e, (env.unitEnv i).sendResult.2 = some e →
          u.completion = Completion.returned ∧
          u.trace.getLast? = some (Call.UpdateMessageStatus m.ID "failed" none)) ∧
        (∀ r, (env.unitEnv i).sendResult = (some r, none) →
          u.completion = Completion.returned ∧
          u.trace.filter Call.isCacheMessageID = [Call.CacheMessageID r.MessageID] ∧
          u.trace.getLast? = some (Call.CacheMessageID r.MessageID))) := by
  refine ⟨runUnit (env.unitEnv i) m, unitAt_eq w env i m hget hm, ?_⟩
  generalize env.unitEnv i = ue
  have hlen : (statusWrites (runUnit ue m).trace).length =
      (if ue.updateResult 0 = none then 1 else if ue.updateResult 1 = none then 2 else 3) := by
    cases hs : ue.sendResult.2 with
    | some e => rw [runUnit_sendErr_writes ue m e hv hs]; simp
    | none => rw [runUnit_sendOk_writes ue m hv hs]; simp
  refine ⟨?_, ?_, ?_, ?_, ?_⟩
  · intro e hs c hc
    rw [runUnit_sendErr_writes ue m e hv hs] at hc
    exact List.eq_of_mem_replicate hc
  · intro hs c hc
    rw [runUnit_sendOk_writes ue m hv hs, List.mem_map] at hc
    obtain ⟨j, _, rfl⟩ := hc
    exact ⟨ue.clock j, rfl⟩
  · intro k hk1 hk3 hj hk
    rw [hlen]
    have hcases : k = 1 ∨ k = 2 ∨ k = 3 := by omega
    rcases hcases with rfl | rfl | rfl
    · simp only [Nat.sub_self] at hk
      simp [hk]
    · have h0 := hj 0 (by omega)
      have h1 : ue.updateResult 1 = none := hk
      simp [h0, h1]
    · have h0 := hj 0 (by omega)
      have h1 := hj 1 (by omega)
      simp [h0, h1]
  · intro hall
    rw [hlen]
    simp [hall 0 (by omega), hall 1 (by omega)]
  · intro h0 h1 h2
    refine ⟨by rw [hlen]; simp [h0, h1], ?_, ?_⟩
    · intro e hs
      rw [runUnit_sendErr ue m e hv hs]
      simp [h0, h1, h2, STATUS_FAILED]
    · intro r hs
      rw [runUnit_sendOk ue m r hv hs]
      simp [h0, h1, h2, Call.isCacheMessageID]

theorem retry_attempt_count_witness :
    (cycleMixed envThirdOk).getResult.2 = none ∧
    (cycleMixed envThirdOk).getResult.1[0]? = some msgHi ∧
    msgHi.IsValid = true ∧
    ∃ u, unitAt worker2 (cycleMixed envThirdOk) 0 = some u ∧
      (∀ e, ((cycleMixed envThirdOk).unitEnv 0).sendResult.2 = some e →
        ∀ c ∈ statusWrites u.trace, c = Call.UpdateMessageStatus msgHi.ID "failed" none) ∧
      (((cycleMixed envThirdOk).unitEnv 0).sendResult.2 = none →
        ∀ c ∈ statusWrites u.trace, ∃ t, c = Call.UpdateMessageStatus msgHi.ID "sent" (some t)) ∧
      (∀ k, 1 ≤ k → k ≤ 3 →
        (∀ j, j + 1 < k → ((cycleMixed envThirdOk).unitEnv 0).updateResult j ≠ none) →
        ((cycleMixed envThirdOk).unitEnv 0).updateResult (k - 1) = none →
        (statusWrites u.trace).length = k) ∧
      ((∀ j, j < 3 → ((cycleMixed envThirdOk).unitEnv 0).updateResult j ≠ none) →
        (statusWrites u.trace).length = 3) ∧
      (((cycleMixed envThirdOk).unitEnv 0).updateResult 0 ≠ none → ((cycleMixed envThirdOk).unitEnv 0).updateResult 1 ≠ none →
        ((cycleMixed envThirdOk).unitEnv 0).updateResult 2 = none →
        (statusWrites u.trace).length = 3 ∧
        (∀ e, ((cycleMixed envThirdOk).unitEnv 0).sendResult.2 = some e →
          u.completion = Completion.returned ∧
          u.trace.getLast? = some (Call.UpdateMessageStatus msgHi.ID "failed" none)) ∧
        (∀ r, ((cycleMixed envThirdOk).unitEnv 0).sendResult = (some r, none) →
          u.completion = Completion.returned ∧
          u.trace.filter Call.isCacheMessageID = [Call.CacheMessageID r.MessageID] ∧
          u.trace.getLast? = some (Call.CacheMessageID r.MessageID))) :=
  ⟨rfl, rfl, by decide,
    retry_attempt_count worker2 (cycleMixed envThirdOk) 0 msgHi rfl rfl (by decide)⟩

/-- C7: in a cycle whose fetch succeeds, the unit of a valid message whose
delivery succeeds while all three `UpdateMessageStatus(id, "sent", _)`
attempts return an error issues exactly 3 status writes, all with status
"sent" (each with the timestamp read just before it), no write with any
other status, and no `CacheMessageID` call. -/
theorem sent_write_exhausted (w : Worker) (env : CycleEnv) (i : Nat)
    (m : MessageTransaction) (hget : env.getResult.2 = none)
    (hm : env.getResult.1[i]? = some m) (hv : m.IsValid = true)
    (hs : (env.unitEnv i).sendResult.2 = none)
    (h0 : (env.unitEnv i).updateResult 0 ≠ none)
    (h1 : (env.unitEnv i).updateResult 1 ≠ none)
    (h2 : (env.unitEnv i).updateResult 2 ≠ none) :
    ∃ u, unitAt w env i = some u ∧ u.msg = m ∧ u.completion = Completion.returned ∧
      statusWrites u.trace =
        [Call.UpdateMessageStatus m.ID "sent" (some ((env.unitEnv i).clock 0)),
         Call.UpdateMessageStatus m.ID "sent" (some ((env.unitEnv i).clock 1)),
         Call.UpdateMessageStatus m.ID "sent" (some ((env.unitEnv i).clock 2))] ∧
      (statusWrites u.trace).length = 3 ∧
      (∀ c ∈ u.trace, c.isCacheMessageID = false) := by
  refine ⟨runUnit (env.unitEnv i) m, unitAt_eq w env i m hget hm, ?_⟩
  rw [runUnit_sendOk_allFail _ m hv hs h0 h1 h2]
  simp [statusWrites, STATUS_SENT, Call.isUpdateMessageStatus, Call.isCacheMessageID]

theorem sent_write_exhausted_witness :
    (cycleMixed envUpdateFails).getResult.2 = none ∧
    (cycleMixed envUpdateFails).getResult.1[0]? = some msgHi ∧
    msgHi.IsValid = true ∧
    ((cycleMixed envUpdateFails).unitEnv 0).sendResult.2 = none ∧
    ((cycleMixed envUpdateFails).unitEnv 0).updateResult 0 ≠ none ∧
    ((cycleMixed envUpdateFails).unitEnv 0).updateResult 1 ≠ none ∧
    ((cycleMixed envUpdateFails).unitEnv 0).updateResult 2 ≠ none ∧
    ∃ u, unitAt worker2 (cycleMixed envUpdateFails) 0 = some u ∧ u.msg = msgHi ∧
      u.completion = Completion.returned ∧
      statusWrites u.trace =
        [Call.UpdateMessageStatus 8 "sent" (some 100),
         Call.UpdateMessageStatus 8 "sent" (some 101),
         Call.UpdateMessageStatus 8 "sent" (some 102)] ∧
      (statusWrites u.trace).length = 3 ∧
      (∀ c ∈ u.trace, c.isCacheMessageID = false) :=
  ⟨rfl, rfl, by decide, rfl, by decide, by decide, by decide,
    sent_write_exhausted worker2 (cycleMixed envUpdateFails) 0 msgHi rfl rfl (by decide) rfl
      (by decide) (by decide) (by decide)⟩

/-! ## The cache write -/

/-- C8: in a cycle whose fetch succeeds, for the unit of a valid message
whose delivery succeeds with response `r` and whose "sent" write succeeds
within the three attempts: if `CacheMessageID` returns an error, the unit
returns having made exactly one `CacheMessageID` call, which is its last
call (no `UpdateMessageStatus` or `SendMessage` follows it); every status
write of the unit carries "sent", and `SendMessage` was called once.  The
error of the cache write changes nothing in the calls of the unit. -/
theorem cache_failure_ends_unit (w : Worker) (env : CycleEnv) (i : Nat)
    (m : MessageTransaction) (r : MessageResponse) (e : Error)
    (hget : env.getResult.2 = none) (hm : env.getResult.1[i]? = some m)
    (hv : m.IsValid = true) (hs : (env.unitEnv i).sendResult = (some r, none))
    (hk : ∃ k, k < 3 ∧ (env.unitEnv i).updateResult k = none)
    (_hc : (env.unitEnv i).cacheResult = some e) :
    ∃ u pre, unitAt w env i = some u ∧ u.completion = Completion.returned ∧
      u.trace = pre ++ [Call.CacheMessageID r.MessageID] ∧
      (∀ c ∈ pre, c.isCacheMessageID = false) ∧
      u.trace.filter Call.isCacheMessageID = [Call.CacheMessageID r.MessageID] ∧
      u.trace.filter Call.isSendMessage = [Call.SendMessage m.Recipient m.Content] ∧
      (∀ c ∈ statusWrites u.trace, ∃ t, c = Call.UpdateMessageStatus m.ID "sent" (some t)) := by
  have hu := unitAt_eq w env i m hget hm
  rw [runUnit_sendOk _ m r hv hs] at hu
  obtain ⟨k, hk3, hkn⟩ := hk
  by_cases h0 : (env.unitEnv i).updateResult 0 = none
  · simp only [h0, if_true] at hu
    exact ⟨_, [Call.SendMessage m.Recipient m.Content,
      Call.UpdateMessageStatus m.ID STATUS_SENT (some ((env.unitEnv i).clock 0))], hu,
      by simp [statusWrites, STATUS_SENT, Call.isUpdateMessageStatus, Call.isCacheMessageID,
        Call.isSendMessage]⟩
  · by_cases h1 : (env.unitEnv i).updateResult 1 = none
    · simp only [h0, h1, if_true, if_false] at hu
      exact ⟨_, [Call.SendMessage m.Recipient m.Content,
        Call.UpdateMessageStatus m.ID STATUS_SENT (some ((env.unitEnv i).clock 0)),
        Call.Sleep 100,
        Call.UpdateMessageStatus m.ID STATUS_SENT (some ((env.unitEnv i).clock 1))], hu,
        by simp [statusWrites, STATUS_SENT, Call.isUpdateMessageStatus,
          Call.isCacheMessageID, Call.isSendMessage]⟩
    · have h2 : (env.unitEnv i).updateResult 2 = none := by
        have hcases : k = 0 ∨ k = 1 ∨ k = 2 := by omega
        rcases hcases with rfl | rfl | rfl
        · exact absurd hkn h0
        · exact absurd hkn h1
        · exact hkn
      simp only [h0, h1, h2, if_true, if_false] at hu
      exact ⟨_, [Call.SendMessage m.Recipient m.Content,
        Call.UpdateMessageStatus m.ID STATUS_SENT (some ((env.unitEnv i).clock 0)),
        Call.Sleep 100,
        Call.UpdateMessageStatus m.ID STATUS_SENT (some ((env.unitEnv i).clock 1)),
        Call.Sleep 100,
        Call.UpdateMessageStatus m.ID STATUS_SENT (some ((env.unitEnv i).clock 2))], hu,
        by simp [statusWrites, STATUS_SENT, Call.isUpdateMessageStatus,
          Call.isCacheMessageID, Call.isSendMessage]⟩

theorem cache_failure_ends_unit_witness :
    (cycleMixed envCacheFails).getResult.2 = none ∧
    (cycleMixed envCacheFails).getResult.1[0]? = some msgHi ∧
    msgHi.IsValid = true ∧
    ((cycleMixed envCacheFails).unitEnv 0).sendResult =
      (some { Message := "Accepted", MessageID := "msg-1" }, none) ∧
    (∃ k, k < 3 ∧ ((cycleMixed envCacheFails).unitEnv 0).updateResult k = none) ∧
    ((cycleMixed envCacheFails).unitEnv 0).cacheResult = some "redis error" ∧
    ∃ u pre, unitAt worker2 (cycleMixed envCacheFails) 0 = some u ∧
      u.completion = Completion.returned ∧
      u.trace = pre ++ [Call.CacheMessageID "msg-1"] ∧
      (∀ c ∈ pre, c.isCacheMessageID = false) ∧
      u.trace.filter Call.isCacheMessageID = [Call.CacheMessageID "msg-1"] ∧
      u.trace.filter Call.isSendMessage = [Call.SendMessage "+90555" "hi"] ∧
      (∀ c ∈ statusWrites u.trace, ∃ t, c = Call.UpdateMessageStatus 8 "sent" (some t)) :=
  ⟨rfl, rfl, by decide, rfl, ⟨0, by decide, rfl⟩, rfl,
    cache_failure_ends_unit worker2 (cycleMixed envCacheFails) 0 msgHi
      { Message := "Accepted", MessageID := "msg-1" } "redis error" rfl rfl (by decide) rfl
      ⟨0, by decide, rfl⟩ rfl⟩

/-! ## The fetch -/

/-- C9: in a cycle in which `GetMessages` returns an error or an empty
list, the only call issued is one `GetMessages` call: no unit is started, so
there is no `SendMessage`, no `UpdateMessageStatus` and no `CacheMessageID`
call, and `GetMessages` is not called again. -/
theorem fetch_error_or_empty (w : Worker) (env : CycleEnv)
    (h : env.getResult.2 ≠ none ∨ env.getResult.1 = []) :
    (process w env).units = [] ∧
    (process w env).allCalls =
      [Call.GetMessages { Status := ["pending", "failed"] } { Limit := w.limit }] ∧
    ((process w env).allCalls.filter Call.isGetMessages).length = 1 ∧
    ((process w env).allCalls.filter Call.isSendMessage).length = 0 ∧
    ((process w env).allCalls.filter Call.isUpdateMessageStatus).length = 0 ∧
    ((process w env).allCalls.filter Call.isCacheMessageID).length = 0 := by
  have hu : (process w env).units = [] := by
    cases he : env.getResult.2 with
    | some e => exact process_units_err w env e he
    | none =>
      rcases h with h | h
      · exact absurd he h
      · rw [process_units_ok w env he, h]
        rfl
  have hall : (process w env).allCalls =
      [Call.GetMessages { Status := ["pending", "failed"] } { Limit := w.limit }] := by
    simp [CycleRun.allCalls, process_fetch, hu, STATUS_PENDING, STATUS_FAILED]
  refine ⟨hu, hall, ?_⟩
  rw [hall]
  simp [Call.isGetMessages, Call.isSendMessage, Call.isUpdateMessageStatus,
    Call.isCacheMessageID]

theorem fetch_error_or_empty_witness :
    (cycleFetchError.getResult.2 ≠ none ∨ cycleFetchError.getResult.1 = []) ∧
    (process worker2 cycleFetchError).units = [] ∧
    (process worker2 cycleFetchError).allCalls =
      [Call.GetMessages { Status := ["pending", "failed"] } { Limit := worker2.limit }] ∧
    ((process worker2 cycleFetchError).allCalls.filter Call.isGetMessages).length = 1 ∧
    ((process worker2 cycleFetchError).allCalls.filter Call.isSendMessage).length = 0 ∧
    ((process worker2 cycleFetchError).allCalls.filter Call.isUpdateMessageStatus).length = 0 ∧
    ((process worker2 cycleFetchError).allCalls.filter Call.isCacheMessageID).length = 0 :=
  ⟨Or.inl (by decide), fetch_error_or_empty worker2 cycleFetchError (Or.inl (by decide))⟩

/-- C10: for a worker built by `NewWorker` with limit `L`, every cycle
issues exactly one `GetMessages` call; its filter is
`Status = ["pending", "failed"]`, in that order, and its options are
`Limit = L`.  It is the first call of the cycle. -/
theorem fetch_filter_and_limit (L : Int) (rt : Runtime) (env : CycleEnv) :
    (process (NewWorker L rt).1 env).allCalls.filter Call.isGetMessages =
      [Call.GetMessages { Status := ["pending", "failed"] } { Limit := L }] ∧
    (process (NewWorker L rt).1 env).allCalls.head? =
      some (Call.GetMessages { Status := ["pending", "failed"] } { Limit := L }) := by
  have hnone : ((process (NewWorker L rt).1 env).units.map UnitRun.trace).flatten.filter
      Call.isGetMessages = [] := by
    rw [List.filter_eq_nil_iff]
    intro c hc
    rw [List.mem_flatten] at hc
    obtain ⟨tr, htr, hc⟩ := hc
    rw [List.mem_map] at htr
    obtain ⟨u, hu, rfl⟩ := htr
    simp [process_units_noGet _ env u hu c hc]
  constructor
  · simp only [CycleRun.allCalls, List.filter_append, hnone, process_fetch]
    simp [NewWorker, Call.isGetMessages, STATUS_PENDING, STATUS_FAILED]
  · simp [CycleRun.allCalls, process_fetch, NewWorker, STATUS_PENDING, STATUS_FAILED]

/-! ## Delivery calls of a cycle -/

/-- C11: in a cycle whose fetch succeeds, the unit of every valid message
`m` of the batch issues exactly one `SendMessage` call, with arguments
`(m.Recipient, m.Content)`, whatever the answers of the collaborators (a
failed delivery is not tried again), the unit of a message that is not valid
issues none, and the number of `SendMessage` calls of the cycle is the number
of valid messages of the batch.  Every unit is followed to its end. -/
theorem one_send_per_valid_message (w : Worker) (env : CycleEnv)
    (hget : env.getResult.2 = none) :
    (∀ i m, env.getResult.1[i]? = some m →
      ∃ u, unitAt w env i = some u ∧ u.msg = m ∧
        u.trace.filter Call.isSendMessage =
          if m.IsValid then [Call.SendMessage m.Recipient m.Content] else []) ∧
    ((process w env).allCalls.filter Call.isSendMessage).length =
      (env.getResult.1.filter (fun m => m.IsValid)).length := by
  constructor
  · intro i m hm
    exact ⟨runUnit (env.unitEnv i) m, unitAt_eq w env i m hget hm, rfl, runUnit_sends _ m⟩
  · simp only [CycleRun.allCalls, List.filter_append, List.length_append, process_fetch,
      process_units_ok w env hget, fanOut_sends]
    simp [Call.isSendMessage]

theorem one_send_per_valid_message_witness :
    (cycleMixed envSendFails).getResult.2 = none ∧
    (∀ i m, (cycleMixed envSendFails).getResult.1[i]? = some m →
      ∃ u, unitAt worker2 (cycleMixed envSendFails) i = some u ∧ u.msg = m ∧
        u.trace.filter Call.isSendMessage =
          if m.IsValid then [Call.SendMessage m.Recipient m.Content] else []) ∧
    ((process worker2 (cycleMixed envSendFails)).allCalls.filter Call.isSendMessage).length =
      ((cycleMixed envSendFails).getResult.1.filter (fun m => m.IsValid)).length :=
  ⟨rfl, one_send_per_valid_message worker2 (cycleMixed envSendFails) rfl⟩

/-! ## Start and Stop -/

/-- C12: `Start` on a worker that is running changes nothing: `running`
stays true, the ticker handle and the `done` channel are the ones from
before, no ticker or channel is made and no processing loop is launched.
Hence, from every state that calls of `Start` and `Stop` on a new worker
lead to, `Start` followed by `Start` gives the state of a single `Start`,
running, with exactly one ticker that is not stopped. -/
theorem start_when_running_noop (s : Sys) (h : s.w.running = true) :
    Start s = s ∧ (Start s).w.running = true ∧ (Start s).w.ticker = s.w.ticker ∧
    (Start s).w.done = s.w.done ∧ (Start s).rt = s.rt ∧ (Start s).loops = s.loops ∧
    (∀ (ops : List Op) (L : Int) (t : Sys), runOps ops (initSys L) = some t →
      Start (Start t) = Start t ∧ (Start (Start t)).w.running = true ∧
      activeTickers (Start (Start t)) = 1 ∧
      (Start (Start t)).loops.length = t.loops.length + (if t.w.running then 0 else 1)) := by
  have hs := Start_of_running s h
  refine ⟨hs, by rw [hs]; exact h, by rw [hs], by rw [hs], by rw [hs], by rw [hs], ?_⟩
  intro ops L t ht
  have hidem : Start (Start t) = Start t := Start_of_running _ (Start_running t)
  obtain ⟨t2, ht2, hwf, _⟩ := runOps_wellFormed ops (initSys L) (wellFormed_initSys L)
  have heq : t2 = t := by
    rw [ht2] at ht
    exact Option.some.inj ht
  rw [heq] at hwf
  have hact := activeTickers_wellFormed (Start t) (wellFormed_Start t hwf)
  rw [Start_running] at hact
  refine ⟨hidem, by rw [hidem]; exact Start_running t, by rw [hidem]; simpa using hact, ?_⟩
  rw [hidem]
  unfold Start
  by_cases hr : t.w.running = true <;> simp [hr]

theorem start_when_running_noop_witness :
    (Start (initSys 2)).w.running = true ∧
    Start (Start (initSys 2)) = Start (initSys 2) ∧
    activeTickers (Start (Start (initSys 2))) = 1 ∧
    (Start (Start (initSys 2))).loops.length = 1 :=
  have h := start_when_running_noop (Start (initSys 2)) rfl
  ⟨rfl, h.1, (h.2.2.2.2.2.2 [] 2 (initSys 2) rfl).2.2.1, by decide⟩

/-- C13: `Stop` on a worker that is not running returns without a panic and
changes nothing: `running` stays false, no ticker is touched, no channel is
closed.  This holds for the worker just returned by `NewWorker`, whose
ticker is nil.  Hence `Stop` followed by `Stop` gives the state of a single
`Stop`. -/
theorem stop_when_stopped_noop (s : Sys) (h : s.w.running = false) :
    Stop s = some s ∧
    (∀ L : Int, (initSys L).w.ticker = none ∧ Stop (initSys L) = some (initSys L)) ∧
    (∀ t u : Sys, Stop t = some u → u.w.running = false ∧ Stop u = some u) := by
  refine ⟨Stop_of_not_running s h, ?_, ?_⟩
  · intro L
    exact ⟨rfl, Stop_of_not_running _ rfl⟩
  · intro t u htu
    have hu := Stop_not_running t u htu
    exact ⟨hu, Stop_of_not_running u hu⟩

theorem stop_when_stopped_noop_witness :
    (initSys 2).w.running = false ∧ (initSys 2).w.ticker = none ∧
    Stop (initSys 2) = some (initSys 2) ∧
    runOps [Op.Stop, Op.Stop] (initSys 2) = some (initSys 2) :=
  ⟨rfl, rfl, (stop_when_stopped_noop (initSys 2) rfl).1, by decide⟩

/-- C14: every finite sequence of `Start` and `Stop` calls on a worker
returned by `NewWorker` runs without a panic (in particular no `done`
channel is closed a second time, which would panic), and in the state it
leads to: `running` is true exactly when the last call was `Start` (false
for the empty sequence); if `running` is true exactly one ticker is not
stopped and the current `done` channel is open; if `running` is false no
ticker is left running. -/
theorem start_stop_invariant (ops : List Op) (L : Int) :
    ∃ s, runOps ops (initSys L) = some s ∧
      (s.w.running = true ↔ ops.getLast? = some Op.Start) ∧
      (s.w.running = true →
        activeTickers s = 1 ∧ s.rt.chans[s.w.done]? = some false) ∧
      (s.w.running = false → activeTickers s = 0) := by
  obtain ⟨s, hs, hwf, hr⟩ := runOps_wellFormed ops (initSys L) (wellFormed_initSys L)
  refine ⟨s, hs, ?_, ?_, ?_⟩
  · rw [hr, lastIsStart_eq]
    simp [initSys, NewWorker]
  · intro h
    refine ⟨?_, doneOpen_wellFormed s hwf h⟩
    rw [activeTickers_wellFormed s hwf, h]
    rfl
  · intro h
    rw [activeTickers_wellFormed s hwf, h]
    rfl

/-! ## The processing loop -/

/-- C15: a `Start` on a worker that is not running launches one processing
loop, which stands before its first call of `process`.  A loop standing
there can only begin that call: it can neither take a case of the `select`
nor return.  In every state reached from a new worker by calls and loop
steps, a loop that is waiting in the `select` or has returned has made at
least one full call of `process`. -/
theorem first_cycle_before_wait (s : Sys) (h : s.w.running = false) :
    (Start s).loops = s.loops ++ [{ pc := LoopPc.first, cycles := 0 }] ∧
    (∀ (t : Sys) (i n : Nat), t.loops[i]? = some { pc := LoopPc.first, cycles := n } →
      step (Action.loopBegin i) t =
        some (setLoop t i { pc := LoopPc.inCycle, cycles := n + 1 }) ∧
      step (Action.loopFinish i) t = none ∧ step (Action.loopTick i) t = none ∧
      step (Action.loopExit i) t = none) ∧
    (∀ (as : List Action) (L : Int) (t : Sys), run as (initSys L) = some t →
      ∀ l ∈ t.loops,
        (l.pc = LoopPc.first → l.cycles = 0) ∧
        (l.pc ≠ LoopPc.first → 1 ≤ l.cycles)) := by
  refine ⟨by simp [Start, h], ?_, ?_⟩
  · intro t i n hl
    simp [step, hl]
  · intro as L t ht l hl
    have hok := run_loops_ok as (initSys L) t (by simp [initSys]) ht l hl
    unfold Loop.ok at hok
    constructor
    · intro hpc
      simpa [hpc] using hok
    · intro hpc
      cases hpc2 : l.pc with
      | first => exact absurd hpc2 hpc
      | inCycle => simpa [hpc2] using hok
      | waiting d tk => simpa [hpc2] using hok
      | exited => simpa [hpc2] using hok

theorem first_cycle_before_wait_witness :
    (initSys 2).w.running = false ∧
    (Start (initSys 2)).loops = [{ pc := LoopPc.first, cycles := 0 }] ∧
    step (Action.loopTick 0) (Start (initSys 2)) = none ∧
    step (Action.loopExit 0) (Start (initSys 2)) = none :=
  have h := first_cycle_before_wait (initSys 2) rfl
  ⟨rfl, h.1, (h.2.1 (Start (initSys 2)) 0 0 rfl).2.2.1,
    (h.2.1 (Start (initSys 2)) 0 0 rfl).2.2.2⟩

/-- C16 fails on the code: `Start`, the loop begins its first cycle, `Stop`,
`Start` again, the first cycle ends.  The loop of the first `Start` now
enters the `select` with the `done` channel and the ticker of the second
`Start`: it cannot take the `<-w.done` case, since that channel is open, and
on the next tick it begins a second cycle.  Without the second `Start` the
same loop can only return. -/
theorem stopped_loop_survives_restart :
    (∃ t u, run [Action.call Op.Start, Action.loopBegin 0, Action.call Op.Stop,
        Action.call Op.Start, Action.loopFinish 0] (initSys 2) = some t ∧
      t.loops[0]? = some { pc := LoopPc.waiting 2 1, cycles := 1 } ∧
      t.w.done = 2 ∧ t.rt.chans[2]? = some false ∧ t.rt.chans[1]? = some true ∧
      step (Action.loopExit 0) t = none ∧
      step (Action.loopTick 0) t = some u ∧
      u.loops[0]? = some { pc := LoopPc.inCycle, cycles := 2 }) ∧
    (∃ t u, run [Action.call Op.Start, Action.loopBegin 0, Action.call Op.Stop,
        Action.loopFinish 0] (initSys 2) = some t ∧
      t.loops[0]? = some { pc := LoopPc.waiting 1 0, cycles := 1 } ∧
      step (Action.loopTick 0) t = none ∧
      step (Action.loopExit 0) t = some u ∧
      u.loops[0]? = some { pc := LoopPc.exited, cycles := 1 }) :=
  ⟨⟨_, _, rfl, rfl, rfl, rfl, rfl, rfl, rfl, rfl⟩, ⟨_, _, rfl, rfl, rfl, rfl, rfl⟩⟩

/-! ## The worker on the message store -/

/-- C17: let the collection have unique ids and let every stored message
satisfy "`sent_at` is set iff the status is sent".  Take a cycle whose batch
consists of distinct stored messages with status "pending" or "failed".
Then, for every answer of the collaborators, whichever of the calls of the
cycle take effect on the store and in whatever order, every stored message
satisfies the invariant afterwards; and every `UpdateMessageStatus` call of
the cycle carries a timestamp if and only if its status is "sent". -/
theorem sentAt_invariant_preserved (w : Worker) (env : CycleEnv) (docs : Collection)
    (hids : (docs.map (fun d => d.ID)).Nodup)
    (hinv : ∀ d ∈ docs, sentAtOk d = true)
    (hstored : ∀ m ∈ env.getResult.1, m ∈ docs)
    (hstatus : ∀ m ∈ env.getResult.1, m.Status = "pending" ∨ m.Status = "failed")
    (hnodup : env.getResult.1.Nodup) :
    (∀ applied : List Call, (∀ c ∈ applied, c ∈ (process w env).allCalls) →
      ∀ d ∈ applyCalls docs applied, sentAtOk d = true) ∧
    (∀ id status sentAt,
      Call.UpdateMessageStatus id status sentAt ∈ (process w env).allCalls →
      (sentAt.isSome = true ↔ status = "sent")) := by
  have hinj : ∀ x ∈ docs, ∀ y ∈ docs, x.ID = y.ID → x = y := List.inj_on_of_nodup_map hids
  have hspec := process_units_spec w env
  have huniq : ∀ u ∈ (process w env).units, ∀ v ∈ (process w env).units,
      u.msg.ID = v.msg.ID → u = v := by
    intro u hu v hv hid
    have hmsg : u.msg = v.msg :=
      hinj _ (hstored _ (hspec u hu).1) _ (hstored _ (hspec v hv).1) hid
    rcases process_units_msgs w env with h | h
    · have hnd : ((process w env).units.map UnitRun.msg).Nodup := by rw [h]; exact hnodup
      exact List.inj_on_of_nodup_map hnd hu hv hmsg
    · rw [h] at hu; simp at hu
  have hkind : ∀ u ∈ (process w env).units,
      (∀ id st t, Call.UpdateMessageStatus id st t ∈ u.trace →
        id = u.msg.ID ∧ t = none ∧ (st = STATUS_INVALID ∨ st = STATUS_FAILED)) ∨
      (∀ id st t, Call.UpdateMessageStatus id st t ∈ u.trace →
        id = u.msg.ID ∧ st = STATUS_SENT ∧ t.isSome = true) := by
    intro u hu
    obtain ⟨i, hi⟩ := (hspec u hu).2
    have hk := runUnit_kind (env.unitEnv i) u.msg
    rw [← hi] at hk
    exact hk
  have hne1 : STATUS_INVALID ≠ STATUS_SENT := by decide
  have hne2 : STATUS_FAILED ≠ STATUS_SENT := by decide
  constructor
  · intro applied happ d hd
    let N : ObjectID → Prop := fun id => ∃ u ∈ (process w env).units, u.msg.ID = id ∧
      ∀ id2 st t, Call.UpdateMessageStatus id2 st t ∈ u.trace →
        id2 = u.msg.ID ∧ t = none ∧ (st = STATUS_INVALID ∨ st = STATUS_FAILED)
    have hcs : ∀ c ∈ applied, ∀ id st t, c = Call.UpdateMessageStatus id st t →
        (N id ∧ t = none ∧ st ≠ STATUS_SENT) ∨
        (¬ N id ∧ st = STATUS_SENT ∧ t.isSome = true) := by
      intro c hc id st t hceq
      have hall := happ c hc
      rw [hceq] at hall
      obtain ⟨u, hu, hctr⟩ := allCalls_update w env id st t hall
      by_cases hnil : ∀ id2 st2 t2, Call.UpdateMessageStatus id2 st2 t2 ∈ u.trace →
          id2 = u.msg.ID ∧ t2 = none ∧ (st2 = STATUS_INVALID ∨ st2 = STATUS_FAILED)
      · left
        obtain ⟨hid, ht, hst⟩ := hnil id st t hctr
        refine ⟨⟨u, hu, hid.symm, hnil⟩, ht, ?_⟩
        rcases hst with h | h
        · rw [h]; exact hne1
        · rw [h]; exact hne2
      · right
        rcases hkind u hu with h | h
        · exact absurd h hnil
        · obtain ⟨hid, hst, ht⟩ := h id st t hctr
          refine ⟨?_, hst, ht⟩
          rintro ⟨v, hv, hvid, hvnil⟩
          have hvu : v = u := huniq v hv u hu (by rw [hvid, hid])
          rw [hvu] at hvnil
          exact hnil hvnil
    have hJ : ∀ d ∈ docs, sentAtOk d = true ∧ (N d.ID → d.SentAt = none) := by
      intro d hd
      refine ⟨hinv d hd, ?_⟩
      rintro ⟨u, hu, huid, _⟩
      have hmem := (hspec u hu).1
      have hd2 : u.msg = d := hinj _ (hstored _ hmem) _ hd huid
      have hst := hstatus _ hmem
      rw [hd2] at hst
      have hok := (sentAtOk_iff d).mp (hinv d hd)
      cases hsa : d.SentAt with
      | none => rfl
      | some tv =>
        have hsent : d.Status = STATUS_SENT := hok.mp (by simp [hsa])
        rcases hst with h | h <;> rw [h] at hsent <;> exact absurd hsent (by decide)
    exact (applyCalls_keeps N applied hcs docs hJ d hd).1
  · intro id st t hall
    obtain ⟨u, hu, hctr⟩ := allCalls_update w env id st t hall
    rcases hkind u hu with h | h
    · obtain ⟨_, ht, hst⟩ := h id st t hctr
      rw [ht]
      rcases hst with h2 | h2 <;> rw [h2] <;> simp [STATUS_INVALID, STATUS_FAILED]
    · obtain ⟨_, hst, ht⟩ := h id st t hctr
      rw [hst]
      simp [ht, STATUS_SENT]

theorem sentAt_invariant_preserved_witness :
    (docs4.map (fun d => d.ID)).Nodup ∧
    (∀ d ∈ docs4, sentAtOk d = true) ∧
    (∀ m ∈ (cycleDocs4 worker2 envAllOk).getResult.1, m ∈ docs4) ∧
    (∀ m ∈ (cycleDocs4 worker2 envAllOk).getResult.1,
      m.Status = "pending" ∨ m.Status = "failed") ∧
    (cycleDocs4 worker2 envAllOk).getResult.1.Nodup ∧
    (∀ d ∈ applyCalls docs4 (process worker2 (cycleDocs4 worker2 envAllOk)).allCalls,
      sentAtOk d = true) :=
  ⟨by decide, by decide, by decide, by decide, by decide,
    (sentAt_invariant_preserved worker2 (cycleDocs4 worker2 envAllOk) docs4 (by decide)
      (by decide) (by decide) (by decide) (by decide)).1 _ (fun _ h => h)⟩

/-- C18: let the collection have unique ids and take a cycle whose batch
consists of stored messages with status "pending" or "failed" (as a fetch
with the filter of `process` returns).  Then every `UpdateMessageStatus`
call of the cycle targets the id of a message of the batch, whose stored
status is "pending" or "failed", and writes "sent", "failed" or "invalid",
never "pending": every status change is one of pending to sent, pending to
failed, failed to sent, failed to failed, pending to invalid, failed to
invalid.  For a stored message whose status is "sent" or "invalid" no unit
is started (so no `SendMessage` is made for it) and no status write is
issued. -/
theorem status_transitions (w : Worker) (env : CycleEnv) (docs : Collection)
    (hids : (docs.map (fun d => d.ID)).Nodup)
    (hstored : ∀ m ∈ env.getResult.1, m ∈ docs)
    (hstatus : ∀ m ∈ env.getResult.1, m.Status = "pending" ∨ m.Status = "failed") :
    (∀ id status sentAt,
      Call.UpdateMessageStatus id status sentAt ∈ (process w env).allCalls →
      ∃ m ∈ env.getResult.1, m ∈ docs ∧ m.ID = id ∧
        (m.Status = "pending" ∨ m.Status = "failed") ∧
        (status = "sent" ∨ status = "failed" ∨ status = "invalid") ∧
        status ≠ "pending") ∧
    (∀ d ∈ docs, d.Status = "sent" ∨ d.Status = "invalid" →
      (∀ u ∈ (process w env).units, u.msg.ID ≠ d.ID) ∧
      (∀ status sentAt,
        Call.UpdateMessageStatus d.ID status sentAt ∉ (process w env).allCalls)) := by
  have hinj : ∀ x ∈ docs, ∀ y ∈ docs, x.ID = y.ID → x = y := List.inj_on_of_nodup_map hids
  have hspec := process_units_spec w env
  have hfirst : ∀ id status sentAt,
      Call.UpdateMessageStatus id status sentAt ∈ (process w env).allCalls →
      ∃ m ∈ env.getResult.1, m ∈ docs ∧ m.ID = id ∧
        (m.Status = "pending" ∨ m.Status = "failed") ∧
        (status = "sent" ∨ status = "failed" ∨ status = "invalid") ∧
        status ≠ "pending" := by
    intro id st t hall
    obtain ⟨u, hu, hctr⟩ := allCalls_update w env id st t hall
    obtain ⟨hmem, i, hi⟩ := hspec u hu
    rw [hi] at hctr
    refine ⟨u.msg, hmem, hstored _ hmem, ?_, hstatus _ hmem, ?_⟩
    · rcases runUnit_kind (env.unitEnv i) u.msg with h | h
      · exact (h id st t hctr).1.symm
      · exact (h id st t hctr).1.symm
    · rcases runUnit_kind (env.unitEnv i) u.msg with h | h
      · rcases (h id st t hctr).2.2 with h2 | h2 <;> rw [h2] <;>
          simp [STATUS_INVALID, STATUS_FAILED]
      · rw [(h id st t hctr).2.1]
        simp [STATUS_SENT]
  refine ⟨hfirst, ?_⟩
  intro d hd hdst
  have hnounit : ∀ m ∈ env.getResult.1, m.ID ≠ d.ID := by
    intro m hm hid
    have hmd : m = d := hinj _ (hstored _ hm) _ hd hid
    have hst := hstatus m hm
    rw [hmd] at hst
    rcases hdst with h | h <;> rcases hst with h2 | h2 <;> rw [h] at h2 <;>
      exact absurd h2 (by decide)
  constructor
  · intro u hu
    exact hnounit _ (hspec u hu).1
  · intro st t hall
    obtain ⟨m, hm, _, hid, _⟩ := hfirst d.ID st t hall
    exact hnounit m hm hid

theorem status_transitions_witness :
    (docs4.map (fun d => d.ID)).Nodup ∧
    (∀ m ∈ (cycleDocs4 worker2 envSendFails).getResult.1, m ∈ docs4) ∧
    (∀ m ∈ (cycleDocs4 worker2 envSendFails).getResult.1,
      m.Status = "pending" ∨ m.Status = "failed") ∧
    (process worker2 (cycleDocs4 worker2 envSendFails)).allCalls.filter
        Call.isUpdateMessageStatus =
      [Call.UpdateMessageStatus 3 "invalid" none, Call.UpdateMessageStatus 2 "failed" none,
       Call.UpdateMessageStatus 2 "failed" none, Call.UpdateMessageStatus 2 "failed" none] ∧
    (∀ d ∈ docs4, d.Status = "sent" ∨ d.Status = "invalid" →
      (∀ u ∈ (process worker2 (cycleDocs4 worker2 envSendFails)).units, u.msg.ID ≠ d.ID) ∧
      (∀ status sentAt, Call.UpdateMessageStatus d.ID status sentAt ∉
        (process worker2 (cycleDocs4 worker2 envSendFails)).allCalls)) :=
  ⟨by decide, by decide, by decide, by decide,
    (status_transitions worker2 (cycleDocs4 worker2 envSendFails) docs4 (by decide)
      (by decide) (by decide)).2⟩

/-! ## The delivery client -/

/-- C19: for every outcome of marshalling, of building the request, of the
HTTP exchange and of decoding, `messageClient.SendMessage` returns either a
response and no error, or no response and an error.  It returns a response
`r` and no error if and only if the payload was marshalled, the request was
built, the exchange on that request ended with a response of status 200 or
202, and the body of that response decodes to `r` (the body's `message` and
`messageId`).  After a transport error, any other status code or a body that
does not decode, and when the payload cannot be marshalled or no request can
be built, it returns no response and an error. -/
theorem sendMessage_result {β : Type} (c : messageClient) (env : ClientEnv β)
    (recipient content : String) :
    (((c.SendMessage env recipient content).res.isSome = true ∧
        (c.SendMessage env recipient content).err = none) ∨
      ((c.SendMessage env recipient content).res = none ∧
        (c.SendMessage env recipient content).err.isSome = true)) ∧
    (∀ r : MessageResponse,
      ((c.SendMessage env recipient content).res = some r ∧
        (c.SendMessage env recipient content).err = none) ↔
      ∃ jsonData resp,
        env.marshal { To := recipient, Content := content } = Except.ok jsonData ∧
        env.newRequestErr "POST" c.url = none ∧
        env.roundTrip
          { Method := "POST", URL := c.url,
            Header := [("x-ins-auth-key", c.authKey), ("Content-Type", "application/json")],
            Body := jsonData } = Except.ok resp ∧
        (resp.StatusCode = 200 ∨ resp.StatusCode = 202) ∧
        env.decode resp.Body = Except.ok r) ∧
    (∀ jsonData,
      env.marshal { To := recipient, Content := content } = Except.ok jsonData →
      env.newRequestErr "POST" c.url = none →
      ((∃ e, env.roundTrip
          { Method := "POST", URL := c.url,
            Header := [("x-ins-auth-key", c.authKey), ("Content-Type", "application/json")],
            Body := jsonData } = Except.error e) ∨
        (∃ resp, env.roundTrip
          { Method := "POST", URL := c.url,
            Header := [("x-ins-auth-key", c.authKey), ("Content-Type", "application/json")],
            Body := jsonData } = Except.ok resp ∧
          ((resp.StatusCode ≠ 200 ∧ resp.StatusCode ≠ 202) ∨
            ∃ e, env.decode resp.Body = Except.error e))) →
      (c.SendMessage env recipient content).res = none ∧
        (c.SendMessage env recipient content).err.isSome = true) ∧
    (((∃ e, env.marshal { To := recipient, Content := content } = Except.error e) ∨
        (∃ e, env.newRequestErr "POST" c.url = some e)) →
      (c.SendMessage env recipient content).res = none ∧
        (c.SendMessage env recipient content).err.isSome = true) := by
  cases hm : env.marshal { To := recipient, Content := content } with
  | error e => rw [sendMessage_marshalErr c env recipient content e hm]; simp
  | ok jsonData =>
    cases hn : env.newRequestErr "POST" c.url with
    | some e => rw [sendMessage_requestErr c env recipient content jsonData e hm hn]; simp
    | none =>
      cases hr : env.roundTrip
          { Method := "POST", URL := c.url,
            Header := [("x-ins-auth-key", c.authKey), ("Content-Type", "application/json")],
            Body := jsonData } with
      | error e =>
        rw [sendMessage_transportErr c env recipient content jsonData e hm hn hr]
        simp [hr]
      | ok resp =>
        rw [sendMessage_response c env recipient content jsonData resp hm hn hr]
        by_cases hs : resp.StatusCode ≠ 200 ∧ resp.StatusCode ≠ 202
        · have h1 := hs.1
          have h2 := hs.2
          simp [hr, h1, h2]
        · have hs2 : resp.StatusCode = 200 ∨ resp.StatusCode = 202 := by
            by_cases h1 : resp.StatusCode = 200
            · exact Or.inl h1
            · by_cases h2 : resp.StatusCode = 202
              · exact Or.inr h2
              · exact absurd ⟨h1, h2⟩ hs
          rcases hs2 with h | h
          · cases hd : env.decode resp.Body with
            | error e => simp [hr, hd, h]
            | ok hookRes => simp [hr, hd, h]
          · cases hd : env.decode resp.Body with
            | error e => simp [hr, hd, h]
            | ok hookRes => simp [hr, hd, h]

/-- C20: when the payload can be marshalled and the request can be built,
the request that `SendMessage(ctx, to, content)` hands to the HTTP client is
a POST to the configured URL whose header `Content-Type` is
`application/json`, whose header `x-ins-auth-key` is the configured auth
key, and whose body is the marshalled `MessageRequest` with `To = to` and
`Content = content`: every decoder that inverts the marshaller reads these
two values back from the body. -/
theorem sendMessage_request {β : Type} (c : messageClient) (env : ClientEnv β)
    (recipient content : String) (jsonData : β)
    (unmarshal : β → Option MessageRequest)
    (hm : env.marshal { To := recipient, Content := content } = Except.ok jsonData)
    (hn : env.newRequestErr "POST" c.url = none)
    (hinv : ∀ p b, env.marshal p = Except.ok b → unmarshal b = some p) :
    ∃ req, (c.SendMessage env recipient content).request = some req ∧
      req.Method = "POST" ∧ req.URL = c.url ∧
      headerGet req.Header "Content-Type" = some "application/json" ∧
      headerGet req.Header "x-ins-auth-key" = some c.authKey ∧
      req.Header.length = 2 ∧
      req.Body = jsonData ∧
      (∃ p, unmarshal req.Body = some p ∧ p.To = recipient ∧ p.Content = content) := by
  have hreq : (c.SendMessage env recipient content).request = some
      { Method := "POST", URL := c.url,
        Header := [("x-ins-auth-key", c.authKey), ("Content-Type", "application/json")],
        Body := jsonData } := by
    cases hr : env.roundTrip
        { Method := "POST", URL := c.url,
          Header := [("x-ins-auth-key", c.authKey), ("Content-Type", "application/json")],
          Body := jsonData } with
    | error e => rw [sendMessage_transportErr c env recipient content jsonData e hm hn hr]
    | ok resp => rw [sendMessage_response c env recipient content jsonData resp hm hn hr]
  refine ⟨_, hreq, rfl, rfl, ?_, ?_, rfl, rfl, ?_⟩
  · simp [headerGet, List.find?]
  · simp [headerGet, List.find?]
  · exact ⟨_, hinv _ _ hm, rfl, rfl⟩

theorem sendMessage_request_witness :
    (envServer 200 (Except.ok { Message := "ok", MessageID := "msg-1" })).marshal
        { To := "+905551234567", Content := "Test message" } =
      Except.ok (Sum.inl { To := "+905551234567", Content := "Test message" }) ∧
    ∃ req, (client0.SendMessage
        (envServer 200 (Except.ok { Message := "ok", MessageID := "msg-1" }))
        "+905551234567" "Test message").request = some req ∧
      req.Method = "POST" ∧ req.URL = "http://localhost:8080" ∧
      headerGet req.Header "Content-Type" = some "application/json" ∧
      headerGet req.Header "x-ins-auth-key" = some "test-key" ∧
      req.Header.length = 2 ∧
      req.Body = Sum.inl { To := "+905551234567", Content := "Test message" } ∧
      (∃ p, Sum.getLeft? req.Body = some p ∧ p.To = "+905551234567" ∧
        p.Content = "Test message") :=
  ⟨rfl,
    sendMessage_request client0
      (envServer 200 (Except.ok { Message := "ok", MessageID := "msg-1" }))
      "+905551234567" "Test message" (Sum.inl { To := "+905551234567", Content := "Test message" })
      Sum.getLeft? rfl rfl
      (by
        intro p b h
        simp only [envServer, Except.ok.injEq] at h
        rw [← h]
        rfl)⟩

/-! ## The service -/

/-- C21: on a worker in a state that calls of `Start` and `Stop` on a new
worker lead to, `Service.StartStopMessageSending` returns, for every request,
a response whose `Result` is nil.  For the action "start" it calls
`worker.Start` once, nothing else, and answers "started"; for "stop" it calls
`worker.Stop` once, nothing else, and answers "stopped"; for every other
action it calls nothing, leaves the worker as it was and answers the empty
status. -/
theorem startStop_response (svc : Service) (ops : List Op) (L : Int) (s : Sys)
    (req : StartStopMessageSendingRequest) (hreach : runOps ops (initSys L) = some s) :
    ∃ r, svc.StartStopMessageSending s req = some r ∧ r.resp.Result = none ∧
      (req.Action = "start" →
        r.resp.Status = "started" ∧ r.calls = [Op.Start] ∧ r.sys = Start s) ∧
      (req.Action = "stop" →
        r.resp.Status = "stopped" ∧ r.calls = [Op.Stop] ∧ Stop s = some r.sys) ∧
      (req.Action ≠ "start" → req.Action ≠ "stop" →
        r.resp.Status = "" ∧ r.calls = [] ∧ r.sys = s) := by
  obtain ⟨s2, hs2, hwf, _⟩ := runOps_wellFormed ops (initSys L) (wellFormed_initSys L)
  have heq : s2 = s := by
    rw [hs2] at hreach
    exact Option.some.inj hreach
  rw [heq] at hwf
  obtain ⟨t, ht, _, _⟩ := wellFormed_Stop s hwf
  by_cases h1 : req.Action = "start"
  · refine ⟨{ resp := { Result := none, Status := "started" }, calls := [Op.Start],
              sys := Start s }, ?_, rfl, ?_, ?_, ?_⟩
    · simp [Service.StartStopMessageSending, h1]
    · intro _; exact ⟨rfl, rfl, rfl⟩
    · intro h2; rw [h1] at h2; exact absurd h2 (by decide)
    · intro h2; exact absurd h1 h2
  · by_cases h2 : req.Action = "stop"
    · refine ⟨{ resp := { Result := none, Status := "stopped" }, calls := [Op.Stop],
                sys := t }, ?_, rfl, ?_, ?_, ?_⟩
      · simp [Service.StartStopMessageSending, h2, ht]
      · intro h; exact absurd h h1
      · intro _; exact ⟨rfl, rfl, ht⟩
      · intro _ h; exact absurd h2 h
    · refine ⟨{ resp := { Result := none, Status := "" }, calls := [], sys := s }, ?_, rfl,
        ?_, ?_, ?_⟩
      · simp [Service.StartStopMessageSending, h1, h2]
      · intro h; exact absurd h h1
      · intro h; exact absurd h h2
      · intro _ _; exact ⟨rfl, rfl, rfl⟩

theorem startStop_response_witness :
    runOps [Op.Start] (initSys 2) = some (Start (initSys 2)) ∧
    ∃ r, service0.StartStopMessageSending (Start (initSys 2))
        { IPAddress := "", Action := "stop" } = some r ∧
      r.resp.Result = none ∧ r.resp.Status = "stopped" ∧ r.calls = [Op.Stop] ∧
      Stop (Start (initSys 2)) = some r.sys ∧ r.sys.w.running = false :=
  ⟨rfl, Exists.elim
    (startStop_response service0 [Op.Start] 2 (Start (initSys 2))
      { IPAddress := "", Action := "stop" } rfl)
    (fun r hr => ⟨r, hr.1, hr.2.1, (hr.2.2.2.1 rfl).1, (hr.2.2.2.1 rfl).2.1,
      (hr.2.2.2.1 rfl).2.2, Stop_not_running _ _ (hr.2.2.2.1 rfl).2.2⟩)⟩

/-- C22: `Service.RetrieveSentMessages` calls `GetMessages` exactly once,
with the filter `Status = ["sent"]` and the zero options, which set no limit.
If the store answers without error the response carries the store's
messages unchanged, in the same order; if it answers with an error the
response carries no message.  `Result` is nil in both cases. -/
theorem retrieveSentMessages_response (svc : Service)
    (getResult : List MessageTransaction × Option Error) :
    (svc.RetrieveSentMessages getResult).2 =
      [Call.GetMessages { Status := ["sent"] } { Limit := 0 }] ∧
    MessageOptions.ToOptions { Limit := 0 } = none ∧
    (svc.RetrieveSentMessages getResult).1.Result = none ∧
    (getResult.2 = none → (svc.RetrieveSentMessages getResult).1.Messages = getResult.1) ∧
    (getResult.2 ≠ none → (svc.RetrieveSentMessages getResult).1.Messages = []) := by
  unfold Service.RetrieveSentMessages
  cases h : getResult.2 with
  | none => simp [STATUS_SENT, MessageOptions.ToOptions]
  | some e => simp [STATUS_SENT, MessageOptions.ToOptions]

/-- C25: a `Start` that makes a ticker gives it the period `2 * time.Minute`,
120000000000 ns, and in every state that calls of `Start` and `Stop` on a
new worker lead to every ticker has that period.  For every service
configuration, count and delay, `Service.StartSendMessage(count, delay)` makes
one call of `worker.Start` and leaves the worker in the state of `Start`:
the result does not depend on `count`, `delay` or `SendMessageDelay`. -/
theorem ticker_period_fixed (svc : Service) (s : Sys) (count delay : Int) :
    (svc.StartSendMessage s count delay).sys = Start s ∧
    (svc.StartSendMessage s count delay).calls = [Op.Start] ∧
    (s.w.running = false →
      (Start s).rt.tickers = s.rt.tickers ++ [(120000000000, false)] ∧
      (Start s).w.ticker = some s.rt.tickers.length) ∧
    (∀ (ops : List Op) (L : Int) (t : Sys), runOps ops (initSys L) = some t →
      ∀ tk ∈ t.rt.tickers, tk.1 = 120000000000) ∧
    (∀ (svc2 : Service) (count2 delay2 : Int),
      (svc2.StartSendMessage s count2 delay2).sys = (svc.StartSendMessage s count delay).sys) := by
  have hmin : 2 * Minute = 120000000000 := by decide
  refine ⟨rfl, rfl, ?_, ?_, fun _ _ _ => rfl⟩
  · intro h
    simp [Start, h, hmin]
  · intro ops L t ht tk htk
    rw [← hmin]
    exact runOps_period ops (initSys L) t (by simp [initSys, NewWorker]) ht tk htk

theorem ticker_period_fixed_witness :
    (initSys 2).w.running = false ∧
    (service0.StartSendMessage (initSys 2) 5 7).sys = Start (initSys 2) ∧
    (Start (initSys 2)).rt.tickers = [(120000000000, false)] ∧
    (Start (initSys 2)).w.ticker = some 0 :=
  have h := ticker_period_fixed service0 (initSys 2) 5 7
  ⟨rfl, h.1, (h.2.2.1 rfl).1, (h.2.2.1 rfl).2⟩

/-! ## The dedup cache -/

/-- C26: for every provider id `p`, `store.CacheMessageID(ctx, p)` sends
exactly one Redis `SET`, whose key is `p`, whose value is the current time
and whose expiration is one hour, 3600000000000 ns; it returns an error if
and only if that `SET` fails. -/
theorem cacheMessageID_set (now : Time) (setErr : Option Error) (p : String) :
    (redisstore.CacheMessageID now setErr p).2 =
      [{ key := p, value := now, expiration := 3600000000000 }] ∧
    ((redisstore.CacheMessageID now setErr p).1.isSome = true ↔ setErr.isSome = true) ∧
    ((redisstore.CacheMessageID now setErr p).1 = none ↔ setErr = none) := by
  have hexp : messageExpiration = 3600000000000 := by decide
  unfold redisstore.CacheMessageID
  cases setErr with
  | none => simp [hexp]
  | some e => simp [hexp]

/-! ## No panic in a cycle -/

/-- C23: `process` always ends (it is a total function: both retry loops
make at most three rounds, the fan-out one unit per message).  If every
delivery answer is an error or a response, that is, a nil error comes with a
response that is present, then for every batch and every answer of the
store, the client and the cache no unit of the cycle panics, and every
`CacheMessageID` call carries the `MessageID` of the response that
`SendMessage` returned to that unit.  The only path to a panic is a delivery
answer with neither response nor error, followed by a "sent" write that
succeeds. -/
theorem process_no_panic (w : Worker) (env : CycleEnv)
    (hres : ∀ i, (env.unitEnv i).sendResult.2 = none → (env.unitEnv i).sendResult.1 ≠ none) :
    (∀ u ∈ (process w env).units, u.completion = Completion.returned) ∧
    (∀ i u, unitAt w env i = some u → ∀ p, Call.CacheMessageID p ∈ u.trace →
      ∃ r, (env.unitEnv i).sendResult = (some r, none) ∧ p = r.MessageID) ∧
    (∀ (ue : UnitEnv) (m : MessageTransaction),
      (runUnit ue m).completion = Completion.panicked ↔
        (m.IsValid = true ∧ ue.sendResult = (none, none) ∧
          (ue.updateResult 0 = none ∨ ue.updateResult 1 = none ∨
            ue.updateResult 2 = none))) := by
  refine ⟨?_, ?_, runUnit_panicked_iff⟩
  · intro u hu
    obtain ⟨_, i, hi⟩ := process_units_spec w env u hu
    cases hc : u.completion with
    | returned => rfl
    | panicked =>
      rw [hi] at hc
      have hp := (runUnit_panicked_iff (env.unitEnv i) u.msg).mp hc
      have h2 : (env.unitEnv i).sendResult.2 = none := by rw [hp.2.1]
      have h1 : (env.unitEnv i).sendResult.1 = none := by rw [hp.2.1]
      exact absurd h1 (hres i h2)
  · intro i u hu p hp
    unfold unitAt at hu
    cases hg : env.getResult.2 with
    | some e =>
      rw [process_units_err w env e hg] at hu
      simp at hu
    | none =>
      rw [process_units_ok w env hg, fanOut_getElem?] at hu
      cases hm : env.getResult.1[i]? with
      | none => simp [hm] at hu
      | some m =>
        simp only [hm, Option.map_some', Nat.zero_add, Option.some.injEq] at hu
        rw [← hu] at hp
        exact runUnit_cache _ m p hp

theorem process_no_panic_witness :
    (∀ i, ((cycleMixed envAllOk).unitEnv i).sendResult.2 = none →
      ((cycleMixed envAllOk).unitEnv i).sendResult.1 ≠ none) ∧
    (∀ u ∈ (process worker2 (cycleMixed envAllOk)).units,
      u.completion = Completion.returned) ∧
    (process worker2 (cycleMixed envAllOk)).units.length = 2 :=
  ⟨fun _ _ => by simp [cycleMixed, envAllOk],
    (process_no_panic worker2 (cycleMixed envAllOk)
      (fun _ _ => by simp [cycleMixed, envAllOk])).1, by decide⟩

/-! ## The query of `GetMessages` -/

/-- C24 as stated fails on the code.  With an empty `f.Status` the query
returns every document, also those whose status is not one of `f.Status`;
with `o.Limit = 0`, and with a negative `o.Limit`, it returns more than
`o.Limit` documents. -/
theorem getMessages_not_exact :
    (mongostore.GetMessages docs4 none { Status := [] } { Limit := 2 }).1.length = 2 ∧
    (∃ m ∈ (mongostore.GetMessages docs4 none { Status := [] } { Limit := 2 }).1,
      m.Status ∉ ([] : List String)) ∧
    ((mongostore.GetMessages docs4 none { Status := ["sent"] } { Limit := 0 }).1.length : Int)
      > 0 ∧
    ((mongostore.GetMessages docs4 none { Status := ["pending", "failed"] }
      { Limit := -1 }).1.length : Int) > -1 := by
  decide

/-- C24, amended: for every filter `f` and options `o` the query of
`store.GetMessages` selects the documents whose status is one of `f.Status`
if `f.Status` is not empty, and every document if it is empty; it sorts them
by `created_at` ascending; and it returns the first `o.Limit` of them if
`o.Limit > 0`, and all of them otherwise. -/
theorem getMessages_query (docs : Collection) (f : MessageFilter) (o : MessageOptions) :
    (mongostore.GetMessages docs none f o).2 = none ∧
    (∀ d, f.ToFilter d = true ↔ (f.Status = [] ∨ d.Status ∈ f.Status)) ∧
    (∃ sel : List MessageTransaction,
      sel.Perm (docs.filter f.ToFilter) ∧
      sel.Sorted (fun a b => a.CreatedAt ≤ b.CreatedAt) ∧
      (mongostore.GetMessages docs none f o).1 =
        if 0 < o.Limit then sel.take o.Limit.toNat else sel) ∧
    (mongostore.GetMessages docs none f o).1.Sorted (fun a b => a.CreatedAt ≤ b.CreatedAt) ∧
    (∀ m ∈ (mongostore.GetMessages docs none f o).1,
      m ∈ docs ∧ (f.Status = [] ∨ m.Status ∈ f.Status)) ∧
    (0 < o.Limit → ((mongostore.GetMessages docs none f o).1.length : Int) ≤ o.Limit) ∧
    (o.Limit ≤ 0 →
      (mongostore.GetMessages docs none f o).1.length = (docs.filter f.ToFilter).length) := by
  have hsorted := sorted_byCreatedAt (docs.filter f.ToFilter)
  have hperm := List.perm_insertionSort (fun a b : MessageTransaction =>
    a.CreatedAt ≤ b.CreatedAt) (docs.filter f.ToFilter)
  refine ⟨?_, toFilter_iff f, ⟨_, hperm, hsorted, getMessages_eq docs f o⟩, ?_, ?_, ?_, ?_⟩
  · simp only [mongostore.GetMessages]
    cases o.ToOptions <;> rfl
  · rw [getMessages_eq]
    by_cases h : 0 < o.Limit
    · simp only [h, if_true]
      exact hsorted.sublist (List.take_sublist _ _)
    · simp only [h, if_false]
      exact hsorted
  · intro m hm
    have h := getMessages_mem docs f o m hm
    exact ⟨h.1, (toFilter_iff f m).mp h.2⟩
  · intro h
    rw [getMessages_eq]
    simp only [h, if_true, List.length_take]
    have : ((o.Limit.toNat : Nat) : Int) = o.Limit := Int.toNat_of_nonneg (le_of_lt h)
    omega
  · intro h
    rw [getMessages_eq]
    have h2 : ¬ 0 < o.Limit := by omega
    simp only [h2, if_false]
    exact hperm.length_eq

/-! ## The mutex -/

/-- C27 fails on the code.  `Start` and `Stop` read and write the three
fields only while they hold the mutex, and never call `process`; the
goroutine of `Start` never holds the mutex, so `process` runs without it;
but on every entry of the `select` that goroutine reads `w.done` and
`w.ticker` without holding the mutex, while a later `Start` writes both
fields. -/
theorem loop_reads_without_mutex :
    (∀ r, ∀ a ∈ withLock false (StartBody r), a.1.isAccess = true → a.2 = true) ∧
    (∀ r, ∀ a ∈ withLock false (StopBody r), a.1.isAccess = true → a.2 = true) ∧
    (∀ r, Stmt.process ∉ StartBody r ∧ Stmt.process ∉ StopBody r) ∧
    (Stmt.write Field.done, true) ∈ withLock false (StartBody false) ∧
    (Stmt.write Field.ticker, true) ∈ withLock false (StartBody false) ∧
    (∀ n, ∀ a ∈ withLock false (loopBody n), a.2 = false) ∧
    (∀ n, (Stmt.read Field.done, false) ∈ withLock false (loopBody n) ∧
      (Stmt.read Field.ticker, false) ∈ withLock false (loopBody n) ∧
      (Stmt.process, false) ∈ withLock false (loopBody n)) := by
  refine ⟨?_, ?_, ?_, by decide, by decide, ?_, ?_⟩
  · intro r; cases r <;> decide
  · intro r; cases r <;> decide
  · intro r; cases r <;> decide
  · intro n a ha
    rw [withLock_plain false _ (loopBody_plain n), List.mem_map] at ha
    obtain ⟨s, _, rfl⟩ := ha
    rfl
  · intro n
    rw [withLock_plain false _ (loopBody_plain n)]
    obtain ⟨h1, h2, h3⟩ := loopBody_reads n
    exact ⟨List.mem_map_of_mem _ h1, List.mem_map_of_mem _ h2, List.mem_map_of_mem _ h3⟩

/-! ## Pauses of the retry loops -/

/-- C28 as stated fails on the code: when all three attempts fail, the loop
for "failed" and the loop for "sent" both pause three times, not twice, and
the pause after the third attempt is the last thing the unit does. -/
theorem pause_after_last_attempt :
    ((runUnit envSendFails msgHi).trace.filter Call.isSleep).length = 3 ∧
    (statusWrites (runUnit envSendFails msgHi).trace).length = 3 ∧
    (runUnit envSendFails msgHi).trace.getLast? = some (Call.Sleep 100) ∧
    ((runUnit envUpdateFails msgHi).trace.filter Call.isSleep).length = 3 ∧
    (statusWrites (runUnit envUpdateFails msgHi).trace).length = 3 ∧
    (runUnit envUpdateFails msgHi).trace.getLast? = some (Call.Sleep 100) ∧
    unitAt worker2 (cycleMixed envSendFails) 0 = some (runUnit envSendFails msgHi) := by
  decide

/-- C28, amended: in every run of a status-write retry loop, for "failed" and
for "sent", a pause of 100 ms is taken after every attempt that fails, also
after the third.  The number of pauses is the number of failed attempts: the
number of attempts minus one when an attempt succeeds, and 3, the number of
attempts, when all three fail; a run whose first attempt succeeds does not
pause. -/
theorem pause_after_each_failed_attempt (w : Worker) (env : CycleEnv) (i : Nat)
    (m : MessageTransaction) (hget : env.getResult.2 = none)
    (hm : env.getResult.1[i]? = some m) (hv : m.IsValid = true) :
    ∃ u, unitAt w env i = some u ∧
      (∀ c ∈ u.trace, c.isSleep = true → c = Call.Sleep 100) ∧
      (u.trace.filter Call.isSleep).length =
        ((List.range (statusWrites u.trace).length).filter
          (fun k => ((env.unitEnv i).updateResult k).isSome)).length ∧
      ((∃ k, k < 3 ∧ (env.unitEnv i).updateResult k = none) →
        (u.trace.filter Call.isSleep).length + 1 = (statusWrites u.trace).length) ∧
      ((∀ k, k < 3 → (env.unitEnv i).updateResult k ≠ none) →
        (u.trace.filter Call.isSleep).length = 3 ∧ (statusWrites u.trace).length = 3) ∧
      ((env.unitEnv i).updateResult 0 = none →
        (u.trace.filter Call.isSleep).length = 0) := by
  refine ⟨runUnit (env.unitEnv i) m, unitAt_eq w env i m hget hm, ?_⟩
  generalize env.unitEnv i = ue
  have hp := runUnit_pauses ue m hv
  have ha := runUnit_attempts ue m hv
  have h1r : List.range 1 = [0] := by decide
  have h2r : List.range 2 = [0, 1] := by decide
  have h3r : List.range 3 = [0, 1, 2] := by decide
  refine ⟨?_, ?_, ?_, ?_, ?_⟩
  · intro c hc hsl
    have hmem : c ∈ (runUnit ue m).trace.filter Call.isSleep := List.mem_filter.mpr ⟨hc, hsl⟩
    rw [hp] at hmem
    exact List.eq_of_mem_replicate hmem
  · rw [hp, ha]
    by_cases h0 : ue.updateResult 0 = none
    · simp [h0, h1r]
    · by_cases h1 : ue.updateResult 1 = none
      · have h0s : (ue.updateResult 0).isSome = true := by
          cases h : ue.updateResult 0 with
          | none => exact absurd h h0
          | some e => rfl
        simp [h0, h1, h2r, List.filter_cons, h0s]
      · have h0s : (ue.updateResult 0).isSome = true := by
          cases h : ue.updateResult 0 with
          | none => exact absurd h h0
          | some e => rfl
        have h1s : (ue.updateResult 1).isSome = true := by
          cases h : ue.updateResult 1 with
          | none => exact absurd h h1
          | some e => rfl
        by_cases h2 : ue.updateResult 2 = none
        · simp [h0, h1, h2, h3r, List.filter_cons, h0s, h1s]
        · have h2s : (ue.updateResult 2).isSome = true := by
            cases h : ue.updateResult 2 with
            | none => exact absurd h h2
            | some e => rfl
          simp [h0, h1, h2, h3r, List.filter_cons, h0s, h1s, h2s]
  · rintro ⟨k, hk3, hk⟩
    rw [hp, ha]
    by_cases h0 : ue.updateResult 0 = none
    · simp [h0]
    · by_cases h1 : ue.updateResult 1 = none
      · simp [h0, h1]
      · have h2 : ue.updateResult 2 = none := by
          have hcases : k = 0 ∨ k = 1 ∨ k = 2 := by omega
          rcases hcases with rfl | rfl | rfl
          · exact absurd hk h0
          · exact absurd hk h1
          · exact hk
        simp [h0, h1, h2]
  · intro hall
    rw [hp, ha]
    simp [hall 0 (by omega), hall 1 (by omega), hall 2 (by omega)]
  · intro h0
    rw [hp]
    simp [h0]

theorem pause_after_each_failed_attempt_witness :
    (cycleMixed envThirdOk).getResult.2 = none ∧
    (cycleMixed envThirdOk).getResult.1[0]? = some msgHi ∧
    msgHi.IsValid = true ∧
    ∃ u, unitAt worker2 (cycleMixed envThirdOk) 0 = some u ∧
      (u.trace.filter Call.isSleep).length + 1 = (statusWrites u.trace).length ∧
      (u.trace.filter Call.isSleep).length = 2 :=
  ⟨rfl, rfl, by decide, Exists.elim
    (pause_after_each_failed_attempt worker2 (cycleMixed envThirdOk) 0 msgHi rfl rfl
      (by decide))
    (fun u hu => ⟨u, hu.1, hu.2.2.2.1 ⟨2, by decide, rfl⟩, by
      have h := hu.1
      have h2 : u = runUnit envThirdOk msgHi := by
        have h3 : unitAt worker2 (cycleMixed envThirdOk) 0 = some (runUnit envThirdOk msgHi) :=
          rfl
        rw [h3] at h
        exact (Option.some.inj h).symm
      rw [h2]
      decide⟩)⟩

/-! ## Bytes, not characters -/

/-- C29: `IsValid` counts the bytes of the content.  In a cycle whose fetch
succeeds, a message of the batch with a recipient that is not empty, whose
content has at most 1000 characters but more than 1000 bytes, is not valid:
its unit issues the single call `UpdateMessageStatus(m.ID, "invalid", nil)`
and never calls `SendMessage`.  Only the number of bytes enters the proof. -/
theorem isValid_counts_bytes (w : Worker) (env : CycleEnv) (i : Nat) (m : MessageTransaction)
    (hget : env.getResult.2 = none) (hm : env.getResult.1[i]? = some m)
    (_hrec : len m.Recipient > 0) (_hchars : m.Content.length ≤ 1000)
    (hbytes : m.Content.utf8ByteSize > 1000) :
    m.IsValid = false ∧
    ∃ u, unitAt w env i = some u ∧
      u.trace = [Call.UpdateMessageStatus m.ID "invalid" none] ∧
      (∀ c ∈ u.trace, c.isSendMessage = false) := by
  have hinv : m.IsValid = false := isValid_false_of_long m hbytes
  refine ⟨hinv, runUnit (env.unitEnv i) m, unitAt_eq w env i m hget hm, ?_⟩
  rw [runUnit_invalid _ m hinv]
  simp [STATUS_INVALID, Call.isSendMessage]

theorem isValid_counts_bytes_witness :
    (cycleOne msgTwoByte envAllOk).getResult.2 = none ∧
    (cycleOne msgTwoByte envAllOk).getResult.1[0]? = some msgTwoByte ∧
    len msgTwoByte.Recipient > 0 ∧ msgTwoByte.Content.length = 501 ∧
    msgTwoByte.Content.utf8ByteSize = 1002 ∧
    msgTwoByte.IsValid = false ∧
    ∃ u, unitAt worker2 (cycleOne msgTwoByte envAllOk) 0 = some u ∧
      u.trace = [Call.UpdateMessageStatus msgTwoByte.ID "invalid" none] ∧
      (∀ c ∈ u.trace, c.isSendMessage = false) :=
  have hbytes : msgTwoByte.Content.utf8ByteSize = 1002 :=
    len_replicate_char (Char.ofNat 233) 501
  have hchars : msgTwoByte.Content.length = 501 :=
    List.length_replicate 501 (Char.ofNat 233)
  ⟨rfl, rfl, by decide, hchars, hbytes,
    isValid_counts_bytes worker2 (cycleOne msgTwoByte envAllOk) 0 msgTwoByte rfl rfl
      (by decide) (by rw [hchars]; decide) (by rw [hbytes]; decide)⟩

/-! ## The provider id is not checked -/

/-- C30: in a cycle whose fetch succeeds, for the unit of a valid message
whose delivery succeeds with a response `r` whose `MessageID` is empty and
whose "sent" write succeeds within the three attempts, `process` calls
`CacheMessageID` exactly once, with the empty string, as the last call of
the unit: the id is not checked.  `messageClient.SendMessage` returns such a
response, with a nil error, whenever the exchange ends with status 200 or
202 and decoding the body into `hookRes` (which starts as the zero value
`MessageResponse{}`) leaves `MessageID` empty; that `encoding/json` leaves
the field empty for a body without a `messageId` member is a property of
the library, taken here as the hypothesis on `decode`. -/
theorem empty_provider_id_cached (w : Worker) (env : CycleEnv) (i : Nat)
    (m : MessageTransaction) (r : MessageResponse)
    (hget : env.getResult.2 = none) (hm : env.getResult.1[i]? = some m)
    (hv : m.IsValid = true) (hs : (env.unitEnv i).sendResult = (some r, none))
    (hid : r.MessageID = "")
    (hk : ∃ k, k < 3 ∧ (env.unitEnv i).updateResult k = none) :
    (∃ u, unitAt w env i = some u ∧ u.completion = Completion.returned ∧
      u.trace.filter Call.isCacheMessageID = [Call.CacheMessageID ""] ∧
      u.trace.getLast? = some (Call.CacheMessageID "")) ∧
    (∀ (β : Type) (c : messageClient) (cenv : ClientEnv β) (recipient content : String)
      (jsonData : β) (resp : HttpResponse β) (r2 : MessageResponse),
      cenv.marshal { To := recipient, Content := content } = Except.ok jsonData →
      cenv.newRequestErr "POST" c.url = none →
      cenv.roundTrip
          { Method := "POST", URL := c.url,
            Header := [("x-ins-auth-key", c.authKey), ("Content-Type", "application/json")],
            Body := jsonData } = Except.ok resp →
      resp.StatusCode = 200 ∨ resp.StatusCode = 202 →
      cenv.decode resp.Body = Except.ok r2 → r2.MessageID = "" →
      (c.SendMessage cenv recipient content).err = none ∧
      (c.SendMessage cenv recipient content).res = some r2 ∧
      ∀ (env2 : CycleEnv) (j : Nat) (m2 : MessageTransaction),
        env2.getResult.2 = none → env2.getResult.1[j]? = some m2 → m2.IsValid = true →
        m2.Recipient = recipient → m2.Content = content →
        (env2.unitEnv j).sendResult =
          ((c.SendMessage cenv m2.Recipient m2.Content).res,
           (c.SendMessage cenv m2.Recipient m2.Content).err) →
        (env2.unitEnv j).updateResult 0 = none →
        ∃ u, unitAt w env2 j = some u ∧
          u.trace.filter Call.isCacheMessageID = [Call.CacheMessageID ""]) := by
  constructor
  · refine ⟨runUnit (env.unitEnv i) m, unitAt_eq w env i m hget hm, ?_⟩
    rw [runUnit_sendOk _ m r hv hs, hid]
    obtain ⟨k, hk3, hkn⟩ := hk
    by_cases h0 : (env.unitEnv i).updateResult 0 = none
    · simp [h0, Call.isCacheMessageID]
    · by_cases h1 : (env.unitEnv i).updateResult 1 = none
      · simp [h0, h1, Call.isCacheMessageID]
      · have h2 : (env.unitEnv i).updateResult 2 = none := by
          have hcases : k = 0 ∨ k = 1 ∨ k = 2 := by omega
          rcases hcases with rfl | rfl | rfl
          · exact absurd hkn h0
          · exact absurd hkn h1
          · exact hkn
        simp [h0, h1, h2, Call.isCacheMessageID]
  · intro β c cenv recipient content jsonData resp r2 hma hn hr hst hd hid2
    have hresp := sendMessage_response c cenv recipient content jsonData resp hma hn hr
    have herr : (c.SendMessage cenv recipient content).err = none := by
      rw [hresp]
      rcases hst with h | h <;> simp [h, hd]
    have hres : (c.SendMessage cenv recipient content).res = some r2 := by
      rw [hresp]
      rcases hst with h | h <;> simp [h, hd]
    refine ⟨herr, hres, ?_⟩
    intro env2 j m2 hget2 hm2 hv2 hrec hcon hsend h0
    subst hrec
    subst hcon
    rw [hres, herr] at hsend
    refine ⟨runUnit (env2.unitEnv j) m2, unitAt_eq w env2 j m2 hget2 hm2, ?_⟩
    rw [runUnit_sendOk _ m2 r2 hv2 hsend, hid2]
    simp [h0, Call.isCacheMessageID]

theorem empty_provider_id_cached_witness :
    (cycleOne msgHi (unitEnvOfClient client0
      (envServer 200 (Except.ok { Message := "Accepted", MessageID := "" })) msgHi)).getResult.2
      = none ∧
    msgHi.IsValid = true ∧
    (client0.SendMessage (envServer 200 (Except.ok { Message := "Accepted", MessageID := "" }))
      msgHi.Recipient msgHi.Content).res = some { Message := "Accepted", MessageID := "" } ∧
    (client0.SendMessage (envServer 200 (Except.ok { Message := "Accepted", MessageID := "" }))
      msgHi.Recipient msgHi.Content).err = none ∧
    ∃ u, unitAt worker2 (cycleOne msgHi (unitEnvOfClient client0
        (envServer 200 (Except.ok { Message := "Accepted", MessageID := "" })) msgHi)) 0
        = some u ∧
      u.completion = Completion.returned ∧
      u.trace.filter Call.isCacheMessageID = [Call.CacheMessageID ""] ∧
      u.trace.getLast? = some (Call.CacheMessageID "") :=
  ⟨rfl, by decide, rfl, rfl,
    (empty_provider_id_cached worker2
      (cycleOne msgHi (unitEnvOfClient client0
        (envServer 200 (Except.ok { Message := "Accepted", MessageID := "" })) msgHi))
      0 msgHi { Message := "Accepted", MessageID := "" } rfl rfl (by decide) rfl rfl
      ⟨0, by decide, rfl⟩).1⟩

end MessageSender
